import Mathlib

/-!
Shallow embedding of the impression-card plugin's alias / evidence / scheduler /
scorer logic (files `update_service.py`, `storage.py`, `alias_analysis_service.py`),
with the spec's claims settled as theorems.

Python floats are modelled as rationals (`ℚ`); `math.exp` is abstracted as an
explicit function argument `eexp : ℚ → ℚ` (standing for `x ↦ exp x`), applied by
the embedded code to exactly the argument the source passes to `math.exp`.
SQLite tables are modelled as Lean lists of rows; `ORDER BY` clauses become
stable insertion sorts over the corresponding total preorders (the database
leaves tie order unspecified; the embedding fixes it deterministically).
-/

namespace Impression

/-- `_clamp(value, low, high) = max(low, min(high, value))` from `update_service.py`. -/
def clamp (value low high : ℚ) : ℚ := max low (min high value)

/-- `_clamp` at its default bounds `low=0.0, high=1.0`; also the inline
`max(0.0, min(1.0, x))` pattern of `alias_analysis_service.py`. -/
def clamp01 (value : ℚ) : ℚ := clamp value 0 1

/-- Python `row.get(key) or default` for an optional numeric column: both `None`
and `0.0` are falsy and replaced by the default. -/
def orElseNum (v : Option ℚ) (d : ℚ) : ℚ :=
  match v with
  | none => d
  | some x => if x = 0 then d else x

/-- Python `row.get(key) or default` for an optional string column: both `None`
and the empty string are falsy and replaced by the default. -/
def orElseStr (v : Option String) (d : String) : String :=
  match v with
  | none => d
  | some s => if s = "" then d else s

/-- One row of the dict returned by `ImpressionStore.get_evidence_for_item`
(`storage.py`): the columns selected for confidence recomputation. The three
signal columns were added by `ALTER TABLE` and may be `NULL`. -/
structure EvidenceRow where
  message_id : Int
  speaker_id : Option String
  message_ts : Option ℚ
  evidence_confidence : Option ℚ
  joke_likelihood : Option ℚ
  source_type : Option String
  consistency_tag : Option String
deriving DecidableEq

/-- `source_weight = 1.0 if source_type == "self" else 0.7` (`update_service.py`,
`_recompute_confidence_map`). -/
def sourceWeight (source_type : String) : ℚ :=
  if source_type = "self" then 1 else 7/10

/-- The `consistency_weight` chain of `_recompute_confidence_map`:
`0.4` for `"conflicting"`, `0.7` for `"neutral"`, `1.0` otherwise (including `NULL`). -/
def consistencyWeight (tag : Option String) : ℚ :=
  if tag = some "conflicting" then 2/5
  else if tag = some "neutral" then 7/10
  else 1

/-- Trust resolution of `_recompute_confidence_map`: the prefetched
`trust_scores` dict first, then `store.get_user_trust` when the speaker id is
non-empty, else the default `0.7`. -/
def trustFor (trustScores : String → Option ℚ) (storeTrust : String → ℚ)
    (speaker_id : String) : ℚ :=
  match trustScores speaker_id with
  | some t => t
  | none => if speaker_id = "" then 7/10 else storeTrust speaker_id

/-- The value read for `evidence_confidence`:
`float(row.get("evidence_confidence") or 0.6)`. -/
def readEvidenceConfidence (row : EvidenceRow) : ℚ :=
  orElseNum row.evidence_confidence (3/5)

/-- The value read for `joke_likelihood`:
`float(row.get("joke_likelihood") or 0.2)`. -/
def readJokeLikelihood (row : EvidenceRow) : ℚ :=
  orElseNum row.joke_likelihood (1/5)

/-- The raw per-evidence signal of `_recompute_confidence_map` before decay and
clamping: `evidence_conf * (1 - joke_lik) * source_weight * trust * consistency_weight`. -/
def preSignal (trustScores : String → Option ℚ) (storeTrust : String → ℚ)
    (row : EvidenceRow) : ℚ :=
  readEvidenceConfidence row * (1 - readJokeLikelihood row)
    * sourceWeight (orElseStr row.source_type "other")
    * trustFor trustScores storeTrust (orElseStr row.speaker_id "")
    * consistencyWeight row.consistency_tag

/-- The decay factor: `exp(-delta / half_life_sec)` with
`delta = max(0.0, now - float(row.get("message_ts") or now))` when
`half_life_sec > 0`, else `1.0`. `eexp` stands for `math.exp`. -/
def decayFactor (eexp : ℚ → ℚ) (halfLifeSec now : ℚ) (row : EvidenceRow) : ℚ :=
  if 0 < halfLifeSec then
    eexp (-(max 0 (now - orElseNum row.message_ts now) / halfLifeSec))
  else 1

/-- The per-evidence contribution after decay and clamping:
`signal = _clamp(signal * decay)`. -/
def rowSignal (eexp : ℚ → ℚ) (halfLifeSec now : ℚ)
    (trustScores : String → Option ℚ) (storeTrust : String → ℚ)
    (row : EvidenceRow) : ℚ :=
  clamp01 (preSignal trustScores storeTrust row * decayFactor eexp halfLifeSec now row)

/-- The per-item branch of `_recompute_confidence_map`: `0.0` for an empty
evidence list, otherwise `_clamp(1 - prod)` where `prod` is the running product
of `1 - signal` over the evidence rows. The half-life in seconds is
`max(0.0, half_life_days) * 86400.0` as computed in the source. -/
def recomputeItemConfidence (eexp : ℚ → ℚ) (halfLifeDays now : ℚ)
    (trustScores : String → Option ℚ) (storeTrust : String → ℚ)
    (rows : List EvidenceRow) : ℚ :=
  if rows.isEmpty then 0
  else
    clamp01 (1 - rows.foldl
      (fun prod row =>
        prod * (1 - rowSignal eexp (max 0 halfLifeDays * 86400) now trustScores storeTrust row))
      1)

/-- `_recompute_confidence_map` over a list of item texts, with the evidence
lookup abstracted as `getRows`. -/
def recomputeConfidenceMap (eexp : ℚ → ℚ) (halfLifeDays now : ℚ)
    (trustScores : String → Option ℚ) (storeTrust : String → ℚ)
    (getRows : String → List EvidenceRow) (items : List String) : List (String × ℚ) :=
  items.map (fun t =>
    (t, recomputeItemConfidence eexp halfLifeDays now trustScores storeTrust (getRows t)))

/-- The spec's combination rule written as stated:
`confidence = 1 - Π_{e∈E} (1 - decayed(e))` over the list of decayed,
clamped per-evidence signals. -/
def specNoisyOr (decayedSignals : List ℚ) : ℚ :=
  1 - (decayedSignals.map (fun s => 1 - s)).prod

/-! Helper lemmas about clamping and the noisy-OR product. -/

theorem clamp01_nonneg (x : ℚ) : 0 ≤ clamp01 x := le_max_left 0 _

theorem clamp01_le_one (x : ℚ) : clamp01 x ≤ 1 := by
  unfold clamp01 clamp
  exact max_le (by norm_num) (min_le_left 1 x)

theorem clamp01_eq_self {x : ℚ} (h0 : 0 ≤ x) (h1 : x ≤ 1) : clamp01 x = x := by
  unfold clamp01 clamp
  rw [min_eq_right h1, max_eq_right h0]

theorem clamp01_mono {x y : ℚ} (h : x ≤ y) : clamp01 x ≤ clamp01 y := by
  unfold clamp01 clamp
  exact max_le_max le_rfl (min_le_min le_rfl h)

theorem foldl_one_sub_eq_prod (f : EvidenceRow → ℚ) :
    ∀ (rows : List EvidenceRow) (a : ℚ),
      rows.foldl (fun prod row => prod * (1 - f row)) a
        = a * ((rows.map f).map (fun s => 1 - s)).prod := by
  intro rows
  induction rows with
  | nil => intro a; simp
  | cons r rs ih =>
    intro a
    simp only [List.foldl_cons, List.map_cons, List.prod_cons, ih]
    ring

theorem prod_one_sub_mem_unit {l : List ℚ} (h : ∀ s ∈ l, 0 ≤ s ∧ s ≤ 1) :
    0 ≤ ((l.map (fun s => 1 - s)).prod) ∧ ((l.map (fun s => 1 - s)).prod) ≤ 1 := by
  induction l with
  | nil => simp
  | cons s rest ih =>
    have hs := h s (List.mem_cons_self s rest)
    have hrest := ih (fun x hx => h x (List.mem_cons_of_mem s hx))
    simp only [List.map_cons, List.prod_cons]
    constructor
    · exact mul_nonneg (by linarith [hs.2]) hrest.1
    · calc (1 - s) * ((rest.map (fun s => 1 - s)).prod)
          ≤ 1 * ((rest.map (fun s => 1 - s)).prod) := by
            apply mul_le_mul_of_nonneg_right _ hrest.1
            linarith [hs.1]
      _ ≤ 1 := by simpa using hrest.2

theorem rowSignal_mem_unit (eexp : ℚ → ℚ) (halfLifeSec now : ℚ)
    (trustScores : String → Option ℚ) (storeTrust : String → ℚ) (row : EvidenceRow) :
    0 ≤ rowSignal eexp halfLifeSec now trustScores storeTrust row ∧
      rowSignal eexp halfLifeSec now trustScores storeTrust row ≤ 1 :=
  ⟨clamp01_nonneg _, clamp01_le_one _⟩

theorem recomputeItemConfidence_eq_specNoisyOr (eexp : ℚ → ℚ) (halfLifeDays now : ℚ)
    (trustScores : String → Option ℚ) (storeTrust : String → ℚ)
    (rows : List EvidenceRow) (hne : ¬ rows.isEmpty) :
    recomputeItemConfidence eexp halfLifeDays now trustScores storeTrust rows
      = specNoisyOr (rows.map
          (rowSignal eexp (max 0 halfLifeDays * 86400) now trustScores storeTrust)) := by
  unfold recomputeItemConfidence specNoisyOr
  rw [if_neg hne, foldl_one_sub_eq_prod]
  have hmem : ∀ s ∈ rows.map
      (rowSignal eexp (max 0 halfLifeDays * 86400) now trustScores storeTrust),
      0 ≤ s ∧ s ≤ 1 := by
    intro s hs
    rcases List.mem_map.mp hs with ⟨r, _, rfl⟩
    exact rowSignal_mem_unit _ _ _ _ _ _
  have hprod := prod_one_sub_mem_unit hmem
  rw [one_mul]
  exact clamp01_eq_self (by linarith [hprod.2]) (by linarith [hprod.1])

/-- Example trust table: every speaker has trust `1.0`. -/
def exTrustScores : String → Option ℚ := fun _ => some 1

/-- The evidence record of the spec's worked example: stored
`evidence_confidence 0.8`, `joke_likelihood 0.0`, source `self`, fresh message. -/
def exRowA : EvidenceRow :=
  { message_id := 1, speaker_id := some "s", message_ts := some 0
    evidence_confidence := some (4/5), joke_likelihood := some 0
    source_type := some "self", consistency_tag := none }

/-- A second record whose decayed signal is exactly `0.5`:
stored confidence `5/8` and joke likelihood `0.2`, source `self`, trust `1`. -/
def exRowB : EvidenceRow :=
  { message_id := 2, speaker_id := some "s", message_ts := some 0
    evidence_confidence := some (5/8), joke_likelihood := some (1/5)
    source_type := some "self", consistency_tag := none }

/-- C1, counterexample: on the spec's own worked example the code does not
return `0.8`. The stored `joke_likelihood 0.0` is falsy in Python, so
`row.get("joke_likelihood") or 0.2` reads it as `0.2` and the signal is
`0.8 * 0.8 = 0.64`, not `0.8`. -/
theorem c1_example_fails :
    recomputeItemConfidence (fun _ => 1) 0 0 exTrustScores (fun _ => 7/10) [exRowA]
      ≠ 4/5 := by
  simp [recomputeItemConfidence, rowSignal, preSignal, decayFactor, clamp01, clamp,
    readEvidenceConfidence, readJokeLikelihood, orElseNum, orElseStr, sourceWeight,
    consistencyWeight, trustFor, exTrustScores, exRowA]
  norm_num [min_def, max_def]

/-- C1 (amended): the recomputed confidence equals the noisy-OR
`1 - Π (1 - clamp01(signal · decay))` over the evidence rows, where the signal
uses the values read back with the NULL-or-0 defaulting (`0.6` / `0.2`); an
empty evidence set yields exactly `0`; the worked example (stored confidence
`0.8`, stored joke `0.0`, self, trust `1`, no decay) yields `0.64`, and adding
an independent decayed signal of `0.5` yields `1 - 0.36·0.5 = 0.82`. -/
theorem c1_confidence_formula (eexp : ℚ → ℚ) (halfLifeDays now : ℚ)
    (trustScores : String → Option ℚ) (storeTrust : String → ℚ)
    (rows : List EvidenceRow) (hne : rows ≠ []) :
    recomputeItemConfidence eexp halfLifeDays now trustScores storeTrust rows
      = specNoisyOr (rows.map
          (rowSignal eexp (max 0 halfLifeDays * 86400) now trustScores storeTrust))
    ∧ recomputeItemConfidence eexp halfLifeDays now trustScores storeTrust [] = 0
    ∧ recomputeItemConfidence (fun _ => 1) 0 0 exTrustScores (fun _ => 7/10) [exRowA] = 16/25
    ∧ recomputeItemConfidence (fun _ => 1) 0 0 exTrustScores (fun _ => 7/10) [exRowA, exRowB]
        = 41/50 := by
  refine ⟨?_, rfl, ?_, ?_⟩
  · exact recomputeItemConfidence_eq_specNoisyOr eexp halfLifeDays now trustScores storeTrust
      rows (by simpa [List.isEmpty_iff] using hne)
  · simp [recomputeItemConfidence, rowSignal, preSignal, decayFactor, clamp01, clamp,
      readEvidenceConfidence, readJokeLikelihood, orElseNum, orElseStr, sourceWeight,
      consistencyWeight, trustFor, exTrustScores, exRowA]
    norm_num [min_def, max_def]
  · simp [recomputeItemConfidence, rowSignal, preSignal, decayFactor, clamp01, clamp,
      readEvidenceConfidence, readJokeLikelihood, orElseNum, orElseStr, sourceWeight,
      consistencyWeight, trustFor, exTrustScores, exRowA, exRowB]
    norm_num [min_def, max_def]

/-- Witness for `c1_confidence_formula` at a concrete nonempty evidence list. -/
theorem c1_confidence_formula_witness :
    recomputeItemConfidence (fun _ => 1) 0 0 exTrustScores (fun _ => 7/10) [exRowA]
      = specNoisyOr ([exRowA].map
          (rowSignal (fun _ => 1) (max 0 0 * 86400) 0 exTrustScores (fun _ => 7/10))) :=
  (c1_confidence_formula (fun _ => 1) 0 0 exTrustScores (fun _ => 7/10) [exRowA]
    (by simp)).1

/-- C2: adding one evidence record never lowers the recomputed confidence when
there is no decay (half-life `0`): the per-record signal is clamped into `[0,1]`,
so each extra factor `1 - signal` can only shrink the product. -/
theorem c2_confidence_monotone (eexp : ℚ → ℚ) (now : ℚ)
    (trustScores : String → Option ℚ) (storeTrust : String → ℚ)
    (halfLifeDays : ℚ) (hhl : halfLifeDays = 0)
    (row : EvidenceRow) (rows : List EvidenceRow) :
    recomputeItemConfidence eexp halfLifeDays now trustScores storeTrust rows
      ≤ recomputeItemConfidence eexp halfLifeDays now trustScores storeTrust (row :: rows) := by
  subst hhl
  cases rows with
  | nil => simpa [recomputeItemConfidence] using clamp01_nonneg _
  | cons x xs =>
    set rows := x :: xs with hrows
    have hne : ¬ rows.isEmpty := by simp [hrows]
    have hne2 : ¬ (row :: rows).isEmpty := by simp
    unfold recomputeItemConfidence
    rw [if_neg hne, if_neg hne2]
    rw [foldl_one_sub_eq_prod, foldl_one_sub_eq_prod]
    apply clamp01_mono
    set f := rowSignal eexp (max 0 (0:ℚ) * 86400) now trustScores storeTrust with hf
    have hmem : ∀ s ∈ rows.map f, 0 ≤ s ∧ s ≤ 1 := by
      intro s hs
      rcases List.mem_map.mp hs with ⟨r, _, rfl⟩
      exact rowSignal_mem_unit _ _ _ _ _ _
    have hprod := prod_one_sub_mem_unit hmem
    have hrow : 0 ≤ f row ∧ f row ≤ 1 := rowSignal_mem_unit _ _ _ _ _ _
    simp only [List.map_cons, List.prod_cons, one_mul]
    have hstep : (1 - f row) * ((rows.map f).map (fun s => 1 - s)).prod
        ≤ ((rows.map f).map (fun s => 1 - s)).prod := by
      calc (1 - f row) * ((rows.map f).map (fun s => 1 - s)).prod
          ≤ 1 * ((rows.map f).map (fun s => 1 - s)).prod :=
            mul_le_mul_of_nonneg_right (by linarith [hrow.1]) hprod.1
        _ = ((rows.map f).map (fun s => 1 - s)).prod := one_mul _
    linarith

/-- Witness for `c2_confidence_monotone` at a concrete input. -/
theorem c2_confidence_monotone_witness :
    recomputeItemConfidence (fun _ => 1) 0 0 exTrustScores (fun _ => 7/10) [exRowA]
      ≤ recomputeItemConfidence (fun _ => 1) 0 0 exTrustScores (fun _ => 7/10)
          [exRowB, exRowA] :=
  c2_confidence_monotone (fun _ => 1) 0 exTrustScores (fun _ => 7/10) 0 rfl exRowB [exRowA]

/-- An evidence record tagged as certainly a joke: stored `joke_likelihood 1.0`. -/
def exRowJoke : EvidenceRow :=
  { message_id := 3, speaker_id := some "s", message_ts := some 0
    evidence_confidence := some (4/5), joke_likelihood := some 1
    source_type := some "self", consistency_tag := none }

/-- C10, counterexample: a record with positive trust but stored
`joke_likelihood 1.0` contributes signal `0`, not a strictly positive one. -/
theorem c10_zero_signal_counterexample :
    trustFor exTrustScores (fun _ => 7/10) (orElseStr exRowJoke.speaker_id "") = 1
    ∧ preSignal exTrustScores (fun _ => 7/10) exRowJoke = 0 := by
  constructor
  · simp [trustFor, exTrustScores, orElseStr, exRowJoke]
  · norm_num [preSignal, readEvidenceConfidence, readJokeLikelihood, orElseNum, orElseStr,
      sourceWeight, consistencyWeight, trustFor, exTrustScores, exRowJoke]

/-- C10 (amended): `NULL` or exactly-`0` stored `evidence_confidence` is read as
`0.6` and `NULL` or exactly-`0` stored `joke_likelihood` as `0.2`; consequently
every evidence record with positive trust whose stored evidence confidence is
absent or non-negative and whose stored joke likelihood is absent or below `1`
contributes a strictly positive signal — in particular a record stored with
evidence confidence exactly `0`. -/
theorem c10_default_reading (row : EvidenceRow)
    (trustScores : String → Option ℚ) (storeTrust : String → ℚ)
    (htrust : 0 < trustFor trustScores storeTrust (orElseStr row.speaker_id ""))
    (hconf : ∀ v, row.evidence_confidence = some v → 0 ≤ v)
    (hjoke : ∀ v, row.joke_likelihood = some v → v < 1) :
    (row.evidence_confidence = none ∨ row.evidence_confidence = some 0 →
        readEvidenceConfidence row = 3/5)
    ∧ (row.joke_likelihood = none ∨ row.joke_likelihood = some 0 →
        readJokeLikelihood row = 1/5)
    ∧ 0 < preSignal trustScores storeTrust row := by
  refine ⟨?_, ?_, ?_⟩
  · rintro (h | h) <;> simp [readEvidenceConfidence, orElseNum, h]
  · rintro (h | h) <;> simp [readJokeLikelihood, orElseNum, h]
  · have hconfpos : 0 < readEvidenceConfidence row := by
      rcases hc : row.evidence_confidence with _ | v
      · norm_num [readEvidenceConfidence, orElseNum, hc]
      · by_cases hv : v = 0
        · norm_num [readEvidenceConfidence, orElseNum, hc, hv]
        · simp only [readEvidenceConfidence, orElseNum, hc, if_neg hv]
          exact lt_of_le_of_ne (hconf v hc) (Ne.symm hv)
    have hjokelt : readJokeLikelihood row < 1 := by
      rcases hj : row.joke_likelihood with _ | v
      · norm_num [readJokeLikelihood, orElseNum, hj]
      · by_cases hv : v = 0
        · norm_num [readJokeLikelihood, orElseNum, hj, hv]
        · simp only [readJokeLikelihood, orElseNum, hj, if_neg hv]
          exact hjoke v hj
    have hsw : 0 < sourceWeight (orElseStr row.source_type "other") := by
      unfold sourceWeight
      split <;> norm_num
    have hcw : 0 < consistencyWeight row.consistency_tag := by
      unfold consistencyWeight
      split
      · norm_num
      · split <;> norm_num
    have h1 : 0 < 1 - readJokeLikelihood row := by linarith
    unfold preSignal
    positivity

/-- Witness for `c10_default_reading` at a concrete record stored with
evidence confidence exactly `0`. -/
theorem c10_default_reading_witness :
    0 < preSignal exTrustScores (fun _ => 7/10)
        { message_id := 4, speaker_id := some "s", message_ts := some 0
          evidence_confidence := some 0, joke_likelihood := some 0
          source_type := some "self", consistency_tag := none } :=
  (c10_default_reading
    { message_id := 4, speaker_id := some "s", message_ts := some 0
      evidence_confidence := some 0, joke_likelihood := some 0
      source_type := some "self", consistency_tag := none }
    exTrustScores (fun _ => 7/10)
    (by norm_num [trustFor, exTrustScores, orElseStr])
    (by intro v hv; cases hv; norm_num)
    (by intro v hv; cases hv; norm_num)).2.2

/-! Storage model: the `alias_map` and `impression_evidence` tables of
`storage.py`, and the operations the claims are about. -/

/-- One row of the `alias_map` table. The nickname and evidence-text columns
are never read by any lookup or pruning operation and are omitted. -/
structure AliasRow where
  speaker_id : String
  aliasText : String
  target_id : String
  confidence : ℚ
  updated_at : ℚ
  source_group_id : String
deriving DecidableEq

/-- `ORDER BY confidence DESC, updated_at DESC` as a relation: `a` sorts at or
before `b`. -/
def aliasRankLE (a b : AliasRow) : Prop :=
  b.confidence < a.confidence ∨ (b.confidence = a.confidence ∧ b.updated_at ≤ a.updated_at)

instance : DecidableRel aliasRankLE := fun a b => by
  unfold aliasRankLE
  infer_instance

/-- Membership of a row in the `(speaker_id, target_id)` pair being pruned. -/
def isPairRow (speaker_id target_id : String) (r : AliasRow) : Bool :=
  decide (r.speaker_id = speaker_id ∧ r.target_id = target_id)

/-- `ImpressionStore.prune_aliases`: `DELETE` every alias of the
`(speaker_id, target_id)` pair whose `ROW_NUMBER` under
`ORDER BY confidence DESC, updated_at DESC` exceeds `limit`; a non-positive
`limit` returns immediately without deleting anything. The `group_id` argument
of the Python method does not occur in the SQL and is dropped here. -/
def pruneAliases (rows : List AliasRow) (speaker_id target_id : String) (limit : Int) :
    List AliasRow :=
  if limit ≤ 0 then rows
  else
    let ranked := List.insertionSort aliasRankLE (rows.filter (isPairRow speaker_id target_id))
    let deleted := (ranked.drop limit.toNat).map (fun r => r.aliasText)
    rows.filter (fun r =>
      decide (¬ (r.speaker_id = speaker_id ∧ r.target_id = target_id ∧ r.aliasText ∈ deleted)))

/-- `ImpressionStore.find_alias_targets`: `SELECT ... WHERE speaker_id=? AND
alias=? ORDER BY confidence DESC, updated_at DESC`. The `group_id` argument of
the Python method does not occur in the SQL; it is kept here to model the
signature faithfully. -/
def findAliasTargets (rows : List AliasRow) (group_id speaker_id aliasText : String) :
    List AliasRow :=
  List.insertionSort aliasRankLE
    (rows.filter (fun r => decide (r.speaker_id = speaker_id ∧ r.aliasText = aliasText)))

/-- A full row of the `impression_evidence` table with its autoincrement id. -/
structure EvidenceRecord where
  id : Int
  group_id : String
  user_id : String
  item_type : String
  item_text : String
  message_id : Int
  speaker_id : String
  message_text : String
  message_ts : ℚ
  evidence_confidence : Option ℚ
  joke_likelihood : Option ℚ
  source_type : Option String
  consistency_tag : Option String
  created_at : ℚ
deriving DecidableEq

/-- `ORDER BY message_ts DESC, id DESC` for evidence rows. -/
def evidenceRankLE (a b : EvidenceRecord) : Prop :=
  b.message_ts < a.message_ts ∨ (b.message_ts = a.message_ts ∧ b.id ≤ a.id)

instance : DecidableRel evidenceRankLE := fun a b => by
  unfold evidenceRankLE
  infer_instance

/-- `ImpressionStore.get_evidence_for_item`: `WHERE user_id=? AND item_type=?
AND item_text=? ORDER BY message_ts DESC, id DESC`. The `group_id` argument
does not occur in the SQL. -/
def getEvidenceForItem (ev : List EvidenceRecord)
    (group_id user_id item_type item_text : String) : List EvidenceRecord :=
  List.insertionSort evidenceRankLE
    (ev.filter (fun r =>
      decide (r.user_id = user_id ∧ r.item_type = item_type ∧ r.item_text = item_text)))

/-- `ImpressionStore.get_evidence_for_item_and_speaker`: the same with an extra
`speaker_id=?` condition (and the same unused `group_id`). -/
def getEvidenceForItemAndSpeaker (ev : List EvidenceRecord)
    (group_id user_id item_type item_text speaker_id : String) : List EvidenceRecord :=
  List.insertionSort evidenceRankLE
    (ev.filter (fun r =>
      decide (r.user_id = user_id ∧ r.item_type = item_type ∧ r.item_text = item_text
        ∧ r.speaker_id = speaker_id)))

/-- Projection of a stored evidence row onto the columns returned by the
`get_evidence_for_*` selects (the dict consumed by the scorers). -/
def toRow (r : EvidenceRecord) : EvidenceRow :=
  { message_id := r.message_id, speaker_id := some r.speaker_id
    message_ts := some r.message_ts, evidence_confidence := r.evidence_confidence
    joke_likelihood := r.joke_likelihood, source_type := r.source_type
    consistency_tag := r.consistency_tag }

/-! C6: alias pruning. -/

/-- C6, counterexample: `prune_aliases` with `limit = 0` is an explicit no-op
(`if limit <= 0: return`), so a pair holding one edge keeps that edge instead
of the claimed `min(0, 1) = 0` edges. -/
theorem c6_prune_zero_counterexample :
    ((pruneAliases [⟨"s", "al", "t", 1/2, 0, "g"⟩] "s" "t" 0).filter (isPairRow "s" "t")).length
      = 1
    ∧ min ((0 : Int).toNat) 1 = 0 := by
  constructor
  · simp [pruneAliases, isPairRow]
  · rfl

theorem prune_aliases_survivors (rows : List AliasRow) (speaker_id target_id : String)
    (limit : Int) (hlim : 1 ≤ limit) :
    (pruneAliases rows speaker_id target_id limit).filter (isPairRow speaker_id target_id)
      = (rows.filter (isPairRow speaker_id target_id)).filter (fun r =>
          decide (r.aliasText ∉
            (((List.insertionSort aliasRankLE
                (rows.filter (isPairRow speaker_id target_id))).drop limit.toNat).map
              (fun r => r.aliasText)))) := by
  unfold pruneAliases
  rw [if_neg (by omega)]
  simp only [List.filter_filter]
  apply List.filter_congr
  intro r _
  by_cases h1 : r.speaker_id = speaker_id ∧ r.target_id = target_id
    <;> by_cases h2 : r.aliasText ∈
        (((List.insertionSort aliasRankLE
            (rows.filter (isPairRow speaker_id target_id))).drop limit.toNat).map
          (fun r => r.aliasText))
    <;> simp [isPairRow, h1, h2]

theorem prune_aliases_perm_take (rows : List AliasRow) (speaker_id target_id : String)
    (limit : Int) (hlim : 1 ≤ limit)
    (hdist : (rows.filter (isPairRow speaker_id target_id)).Pairwise
      (fun a b => a.aliasText ≠ b.aliasText)) :
    ((pruneAliases rows speaker_id target_id limit).filter
        (isPairRow speaker_id target_id)).Perm
      ((List.insertionSort aliasRankLE
        (rows.filter (isPairRow speaker_id target_id))).take limit.toNat) := by
  rw [prune_aliases_survivors rows speaker_id target_id limit hlim]
  set P := rows.filter (isPairRow speaker_id target_id) with hP
  set ranked := List.insertionSort aliasRankLE P with hranked
  set deleted := (ranked.drop limit.toNat).map (fun r => r.aliasText) with hdeleted
  have hperm : P.Perm ranked := (List.perm_insertionSort aliasRankLE P).symm
  have hpairwise : ranked.Pairwise (fun a b => a.aliasText ≠ b.aliasText) :=
    ((hperm.pairwise_iff (fun h => Ne.symm h)).mp) hdist
  have hsplit : ranked.take limit.toNat ++ ranked.drop limit.toNat = ranked :=
    List.take_append_drop _ _
  have hpw2 : (ranked.take limit.toNat ++ ranked.drop limit.toNat).Pairwise
      (fun a b => a.aliasText ≠ b.aliasText) := by
    rw [hsplit]; exact hpairwise
  have hcross := (List.pairwise_append.mp hpw2).2.2
  refine (hperm.filter _).trans ?_
  have hfr : ranked.filter (fun r => decide (r.aliasText ∉ deleted))
      = ranked.take limit.toNat := by
    conv_lhs => rw [← hsplit]
    rw [List.filter_append]
    have h1 : (ranked.take limit.toNat).filter (fun r => decide (r.aliasText ∉ deleted))
        = ranked.take limit.toNat := by
      rw [List.filter_eq_self]
      intro a ha
      have : a.aliasText ∉ deleted := by
        intro hmem
        rcases List.mem_map.mp hmem with ⟨d, hd, hda⟩
        exact hcross a ha d hd hda.symm
      simpa using this
    have h2 : (ranked.drop limit.toNat).filter (fun r => decide (r.aliasText ∉ deleted))
        = [] := by
      rw [List.filter_eq_nil_iff]
      intro a ha
      have : a.aliasText ∈ deleted := List.mem_map_of_mem (fun r => r.aliasText) ha
      simpa using this
    rw [h1, h2, List.append_nil]
  rw [hfr]

/-- Alias rows for the spec's worked example: confidences
`[0.9, 0.8, 0.95, 0.6, 0.7]` inserted in that order for one pair. -/
def exAliasRows : List AliasRow :=
  [⟨"sa", "a1", "tx", 9/10, 1, "g"⟩,
   ⟨"sa", "a2", "tx", 8/10, 2, "g"⟩,
   ⟨"sa", "a3", "tx", 19/20, 3, "g"⟩,
   ⟨"sa", "a4", "tx", 6/10, 4, "g"⟩,
   ⟨"sa", "a5", "tx", 7/10, 5, "g"⟩]

/-- C6 (amended, for `limit ≥ 1`): after `prune_aliases(speaker, target, N)`,
exactly `min(N, existing_count)` edges remain for the pair, and they are a
permutation of the first `N` edges under `ORDER BY confidence DESC, updated_at
DESC`; for the worked example (`[0.9, 0.8, 0.95, 0.6, 0.7]`, `N = 4`) the
surviving confidences are `{0.95, 0.9, 0.8, 0.7}`. For `N ≤ 0` the operation
is a no-op (see the counterexample). -/
theorem c6_prune_aliases (rows : List AliasRow) (speaker_id target_id : String)
    (limit : Int) (hlim : 1 ≤ limit)
    (hdist : (rows.filter (isPairRow speaker_id target_id)).Pairwise
      (fun a b => a.aliasText ≠ b.aliasText)) :
    ((pruneAliases rows speaker_id target_id limit).filter
        (isPairRow speaker_id target_id)).length
      = min limit.toNat (rows.filter (isPairRow speaker_id target_id)).length
    ∧ ((pruneAliases rows speaker_id target_id limit).filter
          (isPairRow speaker_id target_id)).Perm
        ((List.insertionSort aliasRankLE
          (rows.filter (isPairRow speaker_id target_id))).take limit.toNat)
    ∧ (pruneAliases exAliasRows "sa" "tx" 4).map (fun r => r.confidence)
        = [9/10, 8/10, 19/20, 7/10] := by
  have hperm := prune_aliases_perm_take rows speaker_id target_id limit hlim hdist
  refine ⟨?_, hperm, ?_⟩
  · rw [hperm.length_eq, List.length_take, List.length_insertionSort]
  · have h4 : ((4 : Int)).toNat = 4 := rfl
    norm_num [pruneAliases, exAliasRows, isPairRow, List.insertionSort,
      List.orderedInsert, aliasRankLE, h4, List.filter_cons, List.filter_nil]
    simp

/-- Witness for `c6_prune_aliases` at the worked example itself. -/
theorem c6_prune_aliases_witness :
    ((pruneAliases exAliasRows "sa" "tx" 4).filter (isPairRow "sa" "tx")).length
      = min ((4 : Int).toNat) (exAliasRows.filter (isPairRow "sa" "tx")).length :=
  (c6_prune_aliases exAliasRows "sa" "tx" 4 (by norm_num)
    (by simp only [exAliasRows, isPairRow]; decide)).1

/-! C9: group scoping of lookups. -/

/-- An alias edge created while handling group `"g1"`. -/
def exCrossGroupEdge : AliasRow := ⟨"s", "al", "t", 9/10, 0, "g1"⟩

/-- C9, counterexample: an alias edge created in group `"g1"` is returned by a
lookup performed for group `"g2"` — the `group_id` argument is ignored by the
SQL, so records are visible across groups. -/
theorem c9_cross_group_counterexample :
    exCrossGroupEdge.source_group_id = "g1"
    ∧ exCrossGroupEdge ∈ findAliasTargets [exCrossGroupEdge] "g2" "s" "al" := by
  constructor
  · rfl
  · simp [findAliasTargets, exCrossGroupEdge, List.insertionSort, List.orderedInsert]

/-- C9 (amended): `find_alias_targets` and `get_evidence_for_item` are
speaker/alias- resp. subject/item-scoped but not group-scoped: the `group_id`
argument is ignored, the same result is returned for every group, and a row is
returned exactly when its own key columns match. -/
theorem c9_lookups_not_group_scoped (rows : List AliasRow) (ev : List EvidenceRecord)
    (g g2 speaker_id aliasText user_id item_type item_text : String) :
    findAliasTargets rows g speaker_id aliasText = findAliasTargets rows g2 speaker_id aliasText
    ∧ (∀ r, r ∈ findAliasTargets rows g speaker_id aliasText ↔
        (r ∈ rows ∧ r.speaker_id = speaker_id ∧ r.aliasText = aliasText))
    ∧ getEvidenceForItem ev g user_id item_type item_text
        = getEvidenceForItem ev g2 user_id item_type item_text
    ∧ (∀ r, r ∈ getEvidenceForItem ev g user_id item_type item_text ↔
        (r ∈ ev ∧ r.user_id = user_id ∧ r.item_type = item_type ∧ r.item_text = item_text)) := by
  refine ⟨rfl, ?_, rfl, ?_⟩
  · intro r
    rw [findAliasTargets, List.mem_insertionSort, List.mem_filter]
    simp
  · intro r
    rw [getEvidenceForItem, List.mem_insertionSort, List.mem_filter]
    simp [and_assoc]

/-- Witness for `c9_lookups_not_group_scoped`; the theorem has no genuine
hypothesis, applied at a concrete store. -/
theorem c9_lookups_not_group_scoped_witness :
    findAliasTargets [exCrossGroupEdge] "g1" "s" "al"
      = findAliasTargets [exCrossGroupEdge] "g2" "s" "al" :=
  (c9_lookups_not_group_scoped [exCrossGroupEdge] [] "g1" "g2" "s" "al" "u" "fact" "f").1

/-! The persistent store as a whole, and the mutation operations used by the
synthesis and alias-analysis pipelines. -/

/-- A row of the `message_queue` table (dataclass `GroupMessage` in
`storage.py`). -/
structure GroupMessage where
  id : Int
  group_id : String
  user_id : String
  message : String
  ts : ℚ
deriving DecidableEq

/-- The 13-column tuple built by `build_evidence_records` /
`_build_alias_evidence_records` and inserted by `insert_evidence`; the row id
is auto-assigned on insert. -/
structure NewEvidence where
  group_id : String
  user_id : String
  item_type : String
  item_text : String
  message_id : Int
  speaker_id : String
  message_text : String
  message_ts : ℚ
  evidence_confidence : ℚ
  joke_likelihood : ℚ
  source_type : String
  consistency_tag : Option String
  created_at : ℚ
deriving DecidableEq

/-- `ProfileRecord` as constructed in `update_service.py`. `nickname` and
`summary` use `""` for Python's falsy values. -/
structure ProfileRecord where
  group_id : String
  user_id : String
  nickname : String
  last_seen : ℚ
  summary : String
  traits : List String
  facts : List String
  examples : List String
  updated_at : ℚ
  version : Int
deriving DecidableEq

/-- A persisted profile together with the two confidence maps passed to
`upsert_profile_with_confidence` by `_run_phase_updates`. -/
structure PersistedProfile where
  record : ProfileRecord
  traitConfidence : List (String × ℚ)
  factConfidence : List (String × ℚ)
deriving DecidableEq

/-- The persistent store: message queue, evidence table with its autoincrement
counter, alias table, and profiles keyed by `user_id` (the profiles table's
primary key). -/
structure Store where
  pending : List GroupMessage
  evidence : List EvidenceRecord
  nextEvidenceId : Int
  aliasRows : List AliasRow
  profiles : List (String × PersistedProfile)
deriving DecidableEq

/-- A freshly inserted evidence row with its assigned id. -/
def toRecord (id : Int) (r : NewEvidence) : EvidenceRecord :=
  { id := id, group_id := r.group_id, user_id := r.user_id, item_type := r.item_type
    item_text := r.item_text, message_id := r.message_id, speaker_id := r.speaker_id
    message_text := r.message_text, message_ts := r.message_ts
    evidence_confidence := some r.evidence_confidence
    joke_likelihood := some r.joke_likelihood
    source_type := some r.source_type, consistency_tag := r.consistency_tag
    created_at := r.created_at }

/-- `ImpressionStore.insert_evidence`: append all rows, assigning consecutive
autoincrement ids. -/
def insertEvidence (st : Store) (recs : List NewEvidence) : Store :=
  { st with
    evidence := st.evidence
      ++ recs.enum.map (fun p => toRecord (st.nextEvidenceId + p.1) p.2)
    nextEvidenceId := st.nextEvidenceId + recs.length }

/-- `ImpressionStore.prune_evidence`: keep only the `max_items` most recent rows
(by `message_ts DESC, id DESC`) for `(user_id, item_type, item_text)`, deleting
the rest by id; non-positive `max_items` is a no-op. The `group_id` argument
does not occur in the SQL. -/
def pruneEvidence (st : Store) (group_id user_id item_type item_text : String)
    (maxItems : Int) : Store :=
  if maxItems ≤ 0 then st
  else
    let ranked := List.insertionSort evidenceRankLE (st.evidence.filter (fun r =>
      decide (r.user_id = user_id ∧ r.item_type = item_type ∧ r.item_text = item_text)))
    let ids := (ranked.drop maxItems.toNat).map (fun r => r.id)
    { st with evidence := st.evidence.filter (fun r => decide (r.id ∉ ids)) }

/-- `ImpressionStore.prune_evidence_by_speaker`: like `prune_evidence` with an
extra `speaker_id` condition. -/
def pruneEvidenceBySpeaker (st : Store)
    (group_id user_id item_type item_text speaker_id : String) (maxItems : Int) : Store :=
  if maxItems ≤ 0 then st
  else
    let ranked := List.insertionSort evidenceRankLE (st.evidence.filter (fun r =>
      decide (r.user_id = user_id ∧ r.item_type = item_type ∧ r.item_text = item_text
        ∧ r.speaker_id = speaker_id)))
    let ids := (ranked.drop maxItems.toNat).map (fun r => r.id)
    { st with evidence := st.evidence.filter (fun r => decide (r.id ∉ ids)) }

/-- `ImpressionStore.upsert_alias`: insert, or on conflict of the primary key
`(speaker_id, alias, target_id)` replace confidence, `updated_at` and
`source_group_id` (the nickname/evidence-text columns are not modelled). -/
def upsertAlias (rows : List AliasRow) (group_id speaker_id aliasText target_id : String)
    (confidence : ℚ) (ts : ℚ) : List AliasRow :=
  if rows.any (fun r =>
      decide (r.speaker_id = speaker_id ∧ r.aliasText = aliasText ∧ r.target_id = target_id)) then
    rows.map (fun r =>
      if r.speaker_id = speaker_id ∧ r.aliasText = aliasText ∧ r.target_id = target_id then
        { r with confidence := confidence, updated_at := ts, source_group_id := group_id }
      else r)
  else
    rows ++ [{ speaker_id := speaker_id, aliasText := aliasText, target_id := target_id
               confidence := confidence, updated_at := ts, source_group_id := group_id }]

/-! C8: the alias-confidence invariant and the alias-analysis write path
(`alias_analysis_service.py`). -/

/-- `_normalize_confidence`: unparseable values (modelled as `none`) default to
`0.8`; parsed values are clamped into `[0.5, 0.95]`. -/
def normalizeConfidence (value : Option ℚ) : ℚ :=
  match value with
  | none => 4/5
  | some conf => if conf < 1/2 then 1/2 else if 19/20 < conf then 19/20 else conf

/-- The per-row signal of `_recompute_alias_confidence`: like the profile
scorer but without a consistency weight and with the single speaker's stored
trust (`store.get_user_trust`, modelled with the ambient group applied). -/
def aliasPreSignal (storeTrust : String → ℚ) (speaker_id : String) (row : EvidenceRow) : ℚ :=
  readEvidenceConfidence row * (1 - readJokeLikelihood row)
    * sourceWeight (orElseStr row.source_type "other")
    * storeTrust speaker_id

/-- `_recompute_alias_confidence`: noisy-OR over the speaker's stored alias
evidence; `0.0` when no evidence rows exist; the final value is
`max(0.0, min(1.0, 1 - prod))`, written here as `clamp01`. -/
def recomputeAliasConfidence (eexp : ℚ → ℚ) (halfLifeDays now : ℚ)
    (storeTrust : String → ℚ) (speaker_id : String) (rows : List EvidenceRow) : ℚ :=
  if rows.isEmpty then 0
  else
    clamp01 (1 - rows.foldl
      (fun prod row =>
        prod * (1 - clamp01 (aliasPreSignal storeTrust speaker_id row
          * decayFactor eexp (max 0 halfLifeDays * 86400) now row))) 1)

/-- One parsed alias result of `parse_alias_json`; its `confidence` field is
the `_normalize_confidence` output. Evidence ids are modelled as integers
(non-integer entries are dropped by the source before use). -/
structure AliasItem where
  speaker_id : String
  target_id : String
  aliasText : String
  confidence : ℚ
  evidence_ids : List Int
  evidence_confidences : List ℚ
  joke_likelihoods : List ℚ
  source_types : List String
deriving DecidableEq

/-- `_build_alias_evidence_records`: one evidence tuple per evidence id that
matches a pending message, with positional signal lists defaulting to
`0.6` / `0.2` / `"other"` beyond their lengths; source types are
stripped/lowercased and restricted to `{self, other}`. -/
def buildAliasEvidenceRecords (group_id target_id speaker_id : String) (item : AliasItem)
    (pendingById : Int → Option GroupMessage) (created_at : ℚ) : List NewEvidence :=
  item.evidence_ids.enum.filterMap (fun p =>
    match pendingById p.2 with
    | none => none
    | some msg =>
      let evidence_conf := item.evidence_confidences.getD p.1 (3/5)
      let joke_lik := item.joke_likelihoods.getD p.1 (1/5)
      let source_type := match item.source_types.get? p.1 with
        | some s => s.trim.toLower
        | none => "other"
      some { group_id := group_id, user_id := target_id, item_type := "alias"
             item_text := "alias:" ++ item.aliasText, message_id := msg.id
             speaker_id := speaker_id, message_text := msg.message, message_ts := msg.ts
             evidence_confidence := evidence_conf, joke_likelihood := joke_lik
             source_type := if source_type = "self" ∨ source_type = "other" then source_type
               else "other"
             consistency_tag := none, created_at := created_at })

/-- The per-result body of the loop in `maybe_schedule_alias_analysis` /
`force_alias_analysis`: build evidence records; when non-empty, insert them and
prune per-speaker to `MAX_ALIASES_PER_PAIR = 4`; recompute the alias
confidence from the stored evidence; upsert the alias edge with that
recomputed confidence (not with the parse-time normalized one). -/
def aliasAnalysisItemStep (eexp : ℚ → ℚ) (halfLifeDays now : ℚ)
    (storeTrust : String → ℚ) (group_id : String)
    (pendingById : Int → Option GroupMessage) (st : Store) (item : AliasItem) : Store :=
  let records := buildAliasEvidenceRecords group_id item.target_id item.speaker_id item
    pendingById now
  let st1 := if records.isEmpty then st
    else pruneEvidenceBySpeaker (insertEvidence st records) group_id item.target_id
      "alias" ("alias:" ++ item.aliasText) item.speaker_id 4
  let conf := recomputeAliasConfidence eexp halfLifeDays now storeTrust item.speaker_id
    ((getEvidenceForItemAndSpeaker st1.evidence group_id item.target_id "alias"
        ("alias:" ++ item.aliasText) item.speaker_id).map toRow)
  { st1 with aliasRows := (upsertAlias st1.aliasRows group_id item.speaker_id
      item.aliasText item.target_id conf now) }

/-- An alias result whose evidence ids match no pending message. -/
def exAliasItem : AliasItem :=
  { speaker_id := "s", target_id := "t", aliasText := "al", confidence := 9/10
    evidence_ids := [], evidence_confidences := [], joke_likelihoods := []
    source_types := [] }

/-- The empty store. -/
def emptyStore : Store :=
  { pending := [], evidence := [], nextEvidenceId := 1, aliasRows := [], profiles := [] }

/-- C8, counterexample: an alias-analysis result with no usable evidence stores
an alias edge with confidence `0.0` — `_recompute_alias_confidence` returns
`0.0` for an empty evidence set and that value, not the parse-time normalized
confidence, is what `upsert_alias` persists; `0.0 ∉ [0.5, 0.95]`. -/
theorem c8_stored_confidence_counterexample :
    (aliasAnalysisItemStep (fun _ => 1) 0 0 (fun _ => 7/10) "g" (fun _ => none)
        emptyStore exAliasItem).aliasRows
      = [{ speaker_id := "s", aliasText := "al", target_id := "t", confidence := 0,
           updated_at := 0, source_group_id := "g" }]
    ∧ ¬ ((1:ℚ)/2 ≤ 0) := by
  constructor
  · simp [aliasAnalysisItemStep, buildAliasEvidenceRecords, exAliasItem, emptyStore,
      recomputeAliasConfidence, getEvidenceForItemAndSpeaker, upsertAlias,
      List.insertionSort]
  · norm_num

/-- C8 (amended): the parse-time `_normalize_confidence` output always lies in
`[0.5, 0.95]`, but the value actually stored by alias analysis is the
recomputed noisy-OR confidence, which is only guaranteed to lie in `[0, 1]`
(and is `0` for an empty evidence set — see the counterexample). -/
theorem c8_alias_confidence_bounds (v : Option ℚ) (eexp : ℚ → ℚ)
    (halfLifeDays now : ℚ) (storeTrust : String → ℚ) (speaker_id : String)
    (rows : List EvidenceRow) :
    (1/2 ≤ normalizeConfidence v ∧ normalizeConfidence v ≤ 19/20)
    ∧ (0 ≤ recomputeAliasConfidence eexp halfLifeDays now storeTrust speaker_id rows
        ∧ recomputeAliasConfidence eexp halfLifeDays now storeTrust speaker_id rows ≤ 1) := by
  refine ⟨?_, ?_⟩
  · rcases v with _ | conf
    · norm_num [normalizeConfidence]
    · simp only [normalizeConfidence]
      split_ifs with h1 h2
      · norm_num
      · norm_num
      · constructor <;> linarith
  · unfold recomputeAliasConfidence
    by_cases h : rows.isEmpty
    · rw [if_pos h]; norm_num
    · rw [if_neg h]
      exact ⟨clamp01_nonneg _, clamp01_le_one _⟩

/-! C5: attribution tier precedence (`_build_pending_by_user` and its resolver
helpers in `update_service.py`). The two regex extractors
(`extract_target_ids_from_raw_text` and `_extract_tokens`) are abstracted as
function parameters, so every theorem below holds for the actual regexes. -/

/-- `_resolve_bot_alias_targets`: empty bot id or alias set yields nothing;
otherwise `[bot_user_id]` exactly when some extracted token is a bot alias
(the source returns at the first matching token). -/
def resolveBotAliasTargets (extractTokens : String → List String)
    (message bot_user_id : String) (bot_aliases : List String) : List String :=
  if bot_user_id = "" ∨ bot_aliases.isEmpty then []
  else if (extractTokens message).any (fun t => bot_aliases.contains t) then [bot_user_id]
  else []

/-- `_resolve_alias_targets`: collect the targets of every token found in the
speaker's alias map, deduplicating while preserving order; an absent or empty
speaker map yields nothing. -/
def resolveAliasTargets (extractTokens : String → List String)
    (speaker_id message : String)
    (aliasIndex : String → List (String × List String)) : List String :=
  let speaker_map := aliasIndex speaker_id
  if speaker_map.isEmpty then []
  else
    (extractTokens message).foldl (fun targets token =>
      match speaker_map.lookup token with
      | none => targets
      | some tgts => tgts.foldl (fun acc t => if t ∈ acc then acc else acc ++ [t]) targets) []

/-- `_resolve_nickname_targets`: map tokens through the nickname index,
skipping falsy targets and duplicates. -/
def resolveNicknameTargets (extractTokens : String → List String) (message : String)
    (nickname_to_user : List (String × String)) : List String :=
  (extractTokens message).foldl (fun targets token =>
    match nickname_to_user.lookup token with
    | none => targets
    | some t => if t ≠ "" ∧ t ∉ targets then targets ++ [t] else targets) []

/-- The per-message target chain inside `_build_pending_by_user`: explicit
structural mentions, then bot aliases, then the speaker's alias map, then
(when a nickname index exists) nicknames, then the semantic attribution map. -/
def resolveTargets (extractTargetIds extractTokens : String → List String)
    (attributionMap : Int → List String)
    (nicknameToUser : List (String × String))
    (aliasIndex : String → List (String × List String))
    (bot_user_id : String) (bot_aliases : List String) (msg : GroupMessage) : List String :=
  let t1 := extractTargetIds msg.message
  let t2 := if t1.isEmpty then
      t1 ++ resolveBotAliasTargets extractTokens msg.message bot_user_id bot_aliases
    else t1
  let t3 := if t2.isEmpty then
      t2 ++ resolveAliasTargets extractTokens msg.user_id msg.message aliasIndex
    else t2
  let t4 := if t3.isEmpty ∧ ¬ nicknameToUser.isEmpty then
      t3 ++ resolveNicknameTargets extractTokens msg.message nicknameToUser
    else t3
  if t4.isEmpty then attributionMap msg.id else t4

/-- Python dict access `acc.get(key, [])` on an insertion-ordered association
list. -/
def entry (acc : List (String × List GroupMessage)) (k : String) : List GroupMessage :=
  match acc with
  | [] => []
  | (k0, v) :: rest => if k0 = k then v else entry rest k

/-- Key membership test used by `appendTo`. -/
def hasKey (acc : List (String × List GroupMessage)) (k : String) : Bool :=
  acc.any (fun p => decide (p.1 = k))

/-- `pending_by_user.setdefault(key, []).append(msg)`. -/
def appendTo (acc : List (String × List GroupMessage)) (key : String)
    (msg : GroupMessage) : List (String × List GroupMessage) :=
  if hasKey acc key then
    acc.map (fun p => if p.1 = key then (p.1, p.2 ++ [msg]) else p)
  else acc ++ [(key, [msg])]

/-- `_build_pending_by_user`: group the batch by resolved targets; a message
with no resolved target is attributed to its own speaker. -/
def buildPendingByUser (extractTargetIds extractTokens : String → List String)
    (attributionMap : Int → List String)
    (nicknameToUser : List (String × String))
    (aliasIndex : String → List (String × List String))
    (bot_user_id : String) (bot_aliases : List String)
    (pending : List GroupMessage) : List (String × List GroupMessage) :=
  pending.foldl (fun acc msg =>
    let targets := resolveTargets extractTargetIds extractTokens attributionMap
      nicknameToUser aliasIndex bot_user_id bot_aliases msg
    if targets.isEmpty then appendTo acc msg.user_id msg
    else targets.foldl (fun a t => appendTo a t msg) acc) []

/-- Modelled from the spec's words: the first tier that yields a non-empty
target set determines the subjects and all later tiers are ignored. -/
def firstNonEmptyTier : List (List String) → List String
  | [] => []
  | t :: ts => if t.isEmpty then firstNonEmptyTier ts else t

theorem resolveNicknameTargets_nil (extractTokens : String → List String)
    (message : String) :
    resolveNicknameTargets extractTokens message [] = [] := by
  unfold resolveNicknameTargets
  induction extractTokens message with
  | nil => rfl
  | cons t ts ih => simpa [List.lookup] using ih

theorem hasKey_cons (p : String × List GroupMessage)
    (rest : List (String × List GroupMessage)) (k : String) :
    hasKey (p :: rest) k = (decide (p.1 = k) || hasKey rest k) := rfl

theorem entry_eq_nil_of_not_hasKey :
    ∀ (acc : List (String × List GroupMessage)) (k : String),
      hasKey acc k = false → entry acc k = [] := by
  intro acc
  induction acc with
  | nil => intro k _; rfl
  | cons p rest ih =>
    intro k h
    rw [hasKey_cons] at h
    rcases Bool.or_eq_false_iff.mp h with ⟨h1, h2⟩
    have hne : p.1 ≠ k := by simpa using h1
    rw [entry, if_neg hne]
    exact ih k h2

theorem entry_append (l2 : List (String × List GroupMessage)) (k : String) :
    ∀ (acc : List (String × List GroupMessage)),
      entry (acc ++ l2) k = if hasKey acc k then entry acc k else entry l2 k := by
  intro acc
  induction acc with
  | nil => simp [hasKey, entry]
  | cons p rest ih =>
    by_cases hp : p.1 = k
    · rw [List.cons_append, entry, if_pos hp, entry, if_pos hp,
        if_pos (by rw [hasKey_cons]; simp [hp])]
    · rw [List.cons_append, entry, if_neg hp, ih, entry, if_neg hp, hasKey_cons]
      simp [hp]

theorem entry_map_update (k2 : String) (m2 : GroupMessage) :
    ∀ (acc : List (String × List GroupMessage)) (k : String),
      entry (acc.map (fun p => if p.1 = k2 then (p.1, p.2 ++ [m2]) else p)) k
        = if k = k2 ∧ hasKey acc k then entry acc k ++ [m2] else entry acc k := by
  intro acc
  induction acc with
  | nil => intro k; simp [hasKey, entry]
  | cons p rest ih =>
    intro k
    rw [List.map_cons]
    by_cases hp : p.1 = k2
    · rw [if_pos hp]
      by_cases hpk : p.1 = k
      · have hkk2 : k = k2 := hpk ▸ hp
        rw [entry, if_pos hpk, entry, if_pos hpk,
          if_pos ⟨hkk2, by rw [hasKey_cons]; simp [hpk]⟩]
      · rw [entry, if_neg hpk, ih, entry, if_neg hpk, hasKey_cons]
        simp [hpk]
    · rw [if_neg hp]
      by_cases hpk : p.1 = k
      · have hne : ¬ (k = k2 ∧ hasKey (p :: rest) k = true) := by
          rintro ⟨rfl, _⟩
          exact hp hpk
        rw [entry, if_pos hpk, entry, if_pos hpk, if_neg hne]
      · rw [entry, if_neg hpk, ih, entry, if_neg hpk, hasKey_cons]
        simp [hpk]

theorem entry_appendTo_self (acc : List (String × List GroupMessage)) (k : String)
    (msg : GroupMessage) : msg ∈ entry (appendTo acc k msg) k := by
  unfold appendTo
  by_cases h : hasKey acc k
  · rw [if_pos h, entry_map_update, if_pos ⟨rfl, h⟩]
    exact List.mem_append_right _ (List.mem_singleton_self msg)
  · rw [if_neg h, entry_append,
      if_neg (by simpa using h)]
    rw [entry]
    simp

theorem entry_appendTo_preserve (acc : List (String × List GroupMessage))
    (k k2 : String) (m m2 : GroupMessage) (h : m ∈ entry acc k) :
    m ∈ entry (appendTo acc k2 m2) k := by
  unfold appendTo
  by_cases hk2 : hasKey acc k2
  · rw [if_pos hk2, entry_map_update]
    split
    · exact List.mem_append_left _ h
    · exact h
  · rw [if_neg hk2, entry_append]
    by_cases hk : hasKey acc k
    · rw [if_pos hk]
      exact h
    · rw [entry_eq_nil_of_not_hasKey acc k (by simpa using hk)] at h
      simp at h

theorem entry_step_preserve (extractTargetIds extractTokens : String → List String)
    (attributionMap : Int → List String) (nicknameToUser : List (String × String))
    (aliasIndex : String → List (String × List String))
    (bot_user_id : String) (bot_aliases : List String) :
    ∀ (pending : List GroupMessage) (acc : List (String × List GroupMessage))
      (k : String) (m : GroupMessage), m ∈ entry acc k →
      m ∈ entry (pending.foldl (fun acc msg =>
        let targets := resolveTargets extractTargetIds extractTokens attributionMap
          nicknameToUser aliasIndex bot_user_id bot_aliases msg
        if targets.isEmpty then appendTo acc msg.user_id msg
        else targets.foldl (fun a t => appendTo a t msg) acc) acc) k := by
  intro pending
  induction pending with
  | nil => intro acc k m h; simpa using h
  | cons msg rest ih =>
    intro acc k m h
    simp only [List.foldl_cons]
    apply ih
    split
    · exact entry_appendTo_preserve acc k msg.user_id m msg h
    · have haux : ∀ (ts : List String) (a : List (String × List GroupMessage)),
          m ∈ entry a k → m ∈ entry (ts.foldl (fun a t => appendTo a t msg) a) k := by
        intro ts
        induction ts with
        | nil => intro a ha; simpa using ha
        | cons t ts2 ih2 =>
          intro a ha
          exact ih2 _ (entry_appendTo_preserve a k t m msg ha)
      exact haux _ acc h

/-- C5: the attribution chain resolves by strict tier precedence — the result
equals the first non-empty tier among explicit structural mentions, bot
aliases, speaker-scoped aliases, nicknames (a tier that yields nothing when
the nickname index is empty) and the semantic attribution map; in particular a
non-empty explicit mention set wins outright, and a message all of whose tiers
yield nothing is grouped under its own speaker by `_build_pending_by_user`. -/
theorem c5_tier_precedence (extractTargetIds extractTokens : String → List String)
    (attributionMap : Int → List String) (nicknameToUser : List (String × String))
    (aliasIndex : String → List (String × List String))
    (bot_user_id : String) (bot_aliases : List String) (msg : GroupMessage)
    (pending : List GroupMessage) :
    resolveTargets extractTargetIds extractTokens attributionMap nicknameToUser
        aliasIndex bot_user_id bot_aliases msg
      = firstNonEmptyTier
          [extractTargetIds msg.message,
           resolveBotAliasTargets extractTokens msg.message bot_user_id bot_aliases,
           resolveAliasTargets extractTokens msg.user_id msg.message aliasIndex,
           resolveNicknameTargets extractTokens msg.message nicknameToUser,
           attributionMap msg.id]
    ∧ (extractTargetIds msg.message ≠ [] →
        resolveTargets extractTargetIds extractTokens attributionMap nicknameToUser
          aliasIndex bot_user_id bot_aliases msg = extractTargetIds msg.message)
    ∧ (msg ∈ pending →
        resolveTargets extractTargetIds extractTokens attributionMap nicknameToUser
          aliasIndex bot_user_id bot_aliases msg = [] →
        msg ∈ entry (buildPendingByUser extractTargetIds extractTokens attributionMap
          nicknameToUser aliasIndex bot_user_id bot_aliases pending) msg.user_id) := by
  have htier : resolveTargets extractTargetIds extractTokens attributionMap nicknameToUser
        aliasIndex bot_user_id bot_aliases msg
      = firstNonEmptyTier
          [extractTargetIds msg.message,
           resolveBotAliasTargets extractTokens msg.message bot_user_id bot_aliases,
           resolveAliasTargets extractTokens msg.user_id msg.message aliasIndex,
           resolveNicknameTargets extractTokens msg.message nicknameToUser,
           attributionMap msg.id] := by
    unfold resolveTargets
    by_cases h1 : extractTargetIds msg.message = []
      <;> by_cases h2 : resolveBotAliasTargets extractTokens msg.message bot_user_id
            bot_aliases = []
      <;> by_cases h3 : resolveAliasTargets extractTokens msg.user_id msg.message
            aliasIndex = []
      <;> by_cases h4 : nicknameToUser = []
      <;> by_cases h5 : resolveNicknameTargets extractTokens msg.message nicknameToUser = []
      <;> by_cases h6 : attributionMap msg.id = []
      <;> simp_all [firstNonEmptyTier, List.isEmpty_iff, resolveNicknameTargets_nil]
  refine ⟨htier, ?_, ?_⟩
  · intro hne
    rw [htier]
    simp [firstNonEmptyTier, List.isEmpty_iff, hne]
  · intro hmem hempty
    unfold buildPendingByUser
    have haux : ∀ (ps : List GroupMessage) (acc : List (String × List GroupMessage)),
        msg ∈ ps →
        msg ∈ entry (ps.foldl (fun acc m0 =>
          let targets := resolveTargets extractTargetIds extractTokens attributionMap
            nicknameToUser aliasIndex bot_user_id bot_aliases m0
          if targets.isEmpty then appendTo acc m0.user_id m0
          else targets.foldl (fun a t => appendTo a t m0) acc) acc) msg.user_id := by
      intro ps
      induction ps with
      | nil => intro acc h; simp at h
      | cons m0 rest ih =>
        intro acc h
        rcases List.mem_cons.mp h with rfl | hmem2
        · simp only [List.foldl_cons]
          rw [if_pos (by simp [hempty])]
          exact entry_step_preserve extractTargetIds extractTokens attributionMap
            nicknameToUser aliasIndex bot_user_id bot_aliases rest _ _ _
            (entry_appendTo_self acc msg.user_id msg)
        · simp only [List.foldl_cons]
          exact ih _ hmem2
    exact haux pending [] hmem

/-- Witness for `c5_tier_precedence`: a message carrying both an explicit
mention (`@42`) and a matching personal alias (`al → 99`) resolves to the
explicit mention. -/
theorem c5_tier_precedence_witness :
    resolveTargets (fun m => if m = "@42 hi" then ["42"] else []) (fun _ => ["al"])
      (fun _ => []) [] (fun s => if s = "sp" then [("al", ["99"])] else []) "" []
      { id := 1, group_id := "g", user_id := "sp", message := "@42 hi", ts := 0 }
      = ["42"] :=
  (c5_tier_precedence (fun m => if m = "@42 hi" then ["42"] else []) (fun _ => ["al"])
    (fun _ => []) [] (fun s => if s = "sp" then [("al", ["99"])] else []) "" []
    { id := 1, group_id := "g", user_id := "sp", message := "@42 hi", ts := 0 }
    []).2.1 (by simp)

/-! C4: per-key serialization of pipeline executions.

The scheduler is modelled as a transition system over the phases of the
triggered tasks. Each task computes a key (`f"{group_id}:{user_id}"`,
`f"group:{group_id}"` or `f"alias:{group_id}"`); a scheduled (non-forced)
trigger first checks the `active_updates` set without an intervening await
and either returns (`skipped`) or adds its key and proceeds; a forced trigger
(`force_update` / `force_group_update` / `force_alias_analysis`) proceeds
directly. Every pipeline execution happens inside
`async with update_locks.setdefault(key, asyncio.Lock())`; because all entry
points share the one `update_locks` dict, tasks with equal keys contend on one
lock object, modelled by the `acquire` step firing only while no other task
holds the same key's lock. The `active_updates` membership is derived state: a
non-forced task occupies the set from its add (phase `waiting`) until the
`finally` discard (phase `done`). -/

inductive TriggerPhase where
  | start
  | skipped
  | waiting
  | critical
  | done
deriving DecidableEq

/-- The static description of one trigger: its key and whether it entered
through a forced entry point (which bypasses the active-set check). -/
structure Trigger where
  key : String
  forced : Bool
deriving DecidableEq

/-- Whether `key` is in `active_updates`: some non-forced task with that key
has added it and not yet reached its `finally` discard. -/
def keyActive (spec : Nat → Trigger) (σ : Nat → TriggerPhase) (key : String) : Prop :=
  ∃ j, (spec j).forced = false ∧ (spec j).key = key ∧
    (σ j = TriggerPhase.waiting ∨ σ j = TriggerPhase.critical)

/-- One interleaving step of the scheduler. -/
inductive SchedStep (spec : Nat → Trigger) :
    (Nat → TriggerPhase) → (Nat → TriggerPhase) → Prop
  | enter_skip (σ : Nat → TriggerPhase) (i : Nat) :
      σ i = TriggerPhase.start → (spec i).forced = false →
      keyActive spec σ (spec i).key →
      SchedStep spec σ (Function.update σ i TriggerPhase.skipped)
  | enter_add (σ : Nat → TriggerPhase) (i : Nat) :
      σ i = TriggerPhase.start → (spec i).forced = false →
      ¬ keyActive spec σ (spec i).key →
      SchedStep spec σ (Function.update σ i TriggerPhase.waiting)
  | enter_forced (σ : Nat → TriggerPhase) (i : Nat) :
      σ i = TriggerPhase.start → (spec i).forced = true →
      SchedStep spec σ (Function.update σ i TriggerPhase.waiting)
  | acquire (σ : Nat → TriggerPhase) (i : Nat) :
      σ i = TriggerPhase.waiting →
      (∀ j, (spec j).key = (spec i).key → σ j ≠ TriggerPhase.critical) →
      SchedStep spec σ (Function.update σ i TriggerPhase.critical)
  | release (σ : Nat → TriggerPhase) (i : Nat) :
      σ i = TriggerPhase.critical →
      SchedStep spec σ (Function.update σ i TriggerPhase.done)

/-- All triggers start outside the scheduler. -/
def initState : Nat → TriggerPhase := fun _ => TriggerPhase.start

/-- States reachable by any interleaving of any number of triggers. -/
def Reachable (spec : Nat → Trigger) (σ : Nat → TriggerPhase) : Prop :=
  Relation.ReflTransGen (SchedStep spec) initState σ

/-- At most one task per key holds the lock / executes the pipeline. -/
def MutexPerKey (spec : Nat → Trigger) (σ : Nat → TriggerPhase) : Prop :=
  ∀ i j, σ i = TriggerPhase.critical → σ j = TriggerPhase.critical →
    (spec i).key = (spec j).key → i = j

theorem update_critical_elim {σ : Nat → TriggerPhase} {i a : Nat} {v : TriggerPhase}
    (hv : v ≠ TriggerPhase.critical)
    (ha : Function.update σ i v a = TriggerPhase.critical) :
    a ≠ i ∧ σ a = TriggerPhase.critical := by
  by_cases hai : a = i
  · subst hai
    rw [Function.update_same] at ha
    exact absurd ha hv
  · rw [Function.update_noteq hai] at ha
    exact ⟨hai, ha⟩

theorem mutex_preserved {spec : Nat → Trigger} {σ σ2 : Nat → TriggerPhase}
    (hstep : SchedStep spec σ σ2) (h : MutexPerKey spec σ) : MutexPerKey spec σ2 := by
  cases hstep with
  | enter_skip i h1 h2 h3 =>
    intro a b ha hb hk
    obtain ⟨_, ha2⟩ := update_critical_elim (by simp) ha
    obtain ⟨_, hb2⟩ := update_critical_elim (by simp) hb
    exact h a b ha2 hb2 hk
  | enter_add i h1 h2 h3 =>
    intro a b ha hb hk
    obtain ⟨_, ha2⟩ := update_critical_elim (by simp) ha
    obtain ⟨_, hb2⟩ := update_critical_elim (by simp) hb
    exact h a b ha2 hb2 hk
  | enter_forced i h1 h2 =>
    intro a b ha hb hk
    obtain ⟨_, ha2⟩ := update_critical_elim (by simp) ha
    obtain ⟨_, hb2⟩ := update_critical_elim (by simp) hb
    exact h a b ha2 hb2 hk
  | release i h1 =>
    intro a b ha hb hk
    obtain ⟨_, ha2⟩ := update_critical_elim (by simp) ha
    obtain ⟨_, hb2⟩ := update_critical_elim (by simp) hb
    exact h a b ha2 hb2 hk
  | acquire i h1 hfree =>
    intro a b ha hb hk
    by_cases hai : a = i <;> by_cases hbi : b = i
    · rw [hai, hbi]
    · subst hai
      rw [Function.update_noteq hbi] at hb
      exact absurd hb (hfree b (by rw [← hk]))
    · subst hbi
      rw [Function.update_noteq hai] at ha
      exact absurd ha (hfree a (by rw [hk]))
    · rw [Function.update_noteq hai] at ha
      rw [Function.update_noteq hbi] at hb
      exact h a b ha hb hk

/-- C4: in every reachable interleaving of any number of scheduled or forced
triggers, at most one task per key is executing the pipeline (holding the
key's lock) at a time — the per-key lock, not the best-effort active-set
check, serializes the work. -/
theorem c4_lock_mutual_exclusion (spec : Nat → Trigger) (σ : Nat → TriggerPhase)
    (h : Reachable spec σ) : MutexPerKey spec σ := by
  unfold Reachable at h
  induction h with
  | refl =>
    intro i j hi _ _
    simp [initState] at hi
  | tail _ hstep ih =>
    exact mutex_preserved hstep ih

/-- Witness for `c4_lock_mutual_exclusion`: the state after one forced trigger
entered the scheduler and acquired its lock, reached by two explicit steps. -/
theorem c4_lock_mutual_exclusion_witness :
    MutexPerKey (fun _ => { key := "g:u", forced := true })
      (Function.update (Function.update initState 0 TriggerPhase.waiting) 0
        TriggerPhase.critical) :=
  c4_lock_mutual_exclusion (fun _ => { key := "g:u", forced := true }) _
    (Relation.ReflTransGen.tail
      (Relation.ReflTransGen.single
        (SchedStep.enter_forced initState 0 rfl rfl))
      (SchedStep.acquire (Function.update initState 0 TriggerPhase.waiting) 0
        (Function.update_same 0 TriggerPhase.waiting initState)
        (by
          intro j _
          by_cases hj : j = 0
          · subst hj
            rw [Function.update_same]
            simp
          · rw [Function.update_noteq hj]
            simp [initState])))

/-! C3 and C7: the three-stage synthesis pipeline (`_run_phase_updates`) and
the scheduled single-user trigger (`maybe_schedule_update`). Remote calls are
modelled at the parse boundary: each stage's outcome is an environment value.
For stages 1 and 2, `none` stands for a failed call or an invalid JSON
response (the source treats both with `return False`); stage 3 distinguishes a
failed call (`none`, which aborts) from an invalid JSON response
(`some none`, which the source tolerates by continuing with empty
summaries). -/

/-- One normalized phase-1 evidence signal (`_normalize_candidate_items`). -/
structure CandidateSignal where
  evidence_id : Int
  evidence_confidence : ℚ
  joke_likelihood : ℚ
  source_type : String
deriving DecidableEq

/-- Normalized phase-1 candidates for one user: insertion-ordered maps from
candidate text to its evidence signals. -/
structure Candidates where
  traits : List (String × List CandidateSignal)
  facts : List (String × List CandidateSignal)
deriving DecidableEq

def emptyCandidates : Candidates := { traits := [], facts := [] }

/-- The per-user phase-2 payload (`parse_phase2_merge`): final lists plus the
mapping and consistency blocks (mapping values modelled as lists; the
degenerate single-string form of the source is a one-element list). -/
structure MergePayload where
  traits : List String
  facts : List String
  mappingTraits : List (String × List String)
  mappingFacts : List (String × List String)
  consistencyTraits : List (String × String)
  consistencyFacts : List (String × String)
deriving DecidableEq

/-- The environment of remote-stage outcomes for one pipeline run. -/
structure PhaseEnv where
  provider_id : String
  phase1 : Option (List (String × Candidates))
  phase2 : Option (List (String × MergePayload))
  phase3 : Option (Option (List (String × String)))
deriving DecidableEq

/-- The configuration fields read by the scheduler and pipeline. -/
structure UpdateConfig where
  update_msg_threshold : Int
  update_time_threshold_sec : ℚ
  evidence_half_life_days : ℚ
deriving DecidableEq

/-- `final_by_user` traits: the phase-2 result when present, otherwise the
phase-1 candidate keys verbatim. -/
def finalTraitsOf (candidateByUser : List (String × Candidates))
    (phase2Data : List (String × MergePayload)) (u : String) : List String :=
  match phase2Data.lookup u with
  | some p => p.traits
  | none => (((candidateByUser.lookup u).getD emptyCandidates).traits).map (fun q => q.1)

/-- `final_by_user` facts, as for traits. -/
def finalFactsOf (candidateByUser : List (String × Candidates))
    (phase2Data : List (String × MergePayload)) (u : String) : List String :=
  match phase2Data.lookup u with
  | some p => p.facts
  | none => (((candidateByUser.lookup u).getD emptyCandidates).facts).map (fun q => q.1)

/-- `mapping_by_user` traits: the phase-2 mapping when present, the identity
mapping `{t: [t]}` otherwise. -/
def mappingTraitsOf (candidateByUser : List (String × Candidates))
    (phase2Data : List (String × MergePayload)) (u : String) : List (String × List String) :=
  match phase2Data.lookup u with
  | some p => p.mappingTraits
  | none => (finalTraitsOf candidateByUser phase2Data u).map (fun t => (t, [t]))

/-- `mapping_by_user` facts. -/
def mappingFactsOf (candidateByUser : List (String × Candidates))
    (phase2Data : List (String × MergePayload)) (u : String) : List (String × List String) :=
  match phase2Data.lookup u with
  | some p => p.mappingFacts
  | none => (finalFactsOf candidateByUser phase2Data u).map (fun t => (t, [t]))

/-- `consistency_by_user` traits: the phase-2 tags when present, `"neutral"`
for every item otherwise. -/
def consistencyTraitsOf (candidateByUser : List (String × Candidates))
    (phase2Data : List (String × MergePayload)) (u : String) : List (String × String) :=
  match phase2Data.lookup u with
  | some p => p.consistencyTraits
  | none => (finalTraitsOf candidateByUser phase2Data u).map (fun t => (t, "neutral"))

/-- `consistency_by_user` facts. -/
def consistencyFactsOf (candidateByUser : List (String × Candidates))
    (phase2Data : List (String × MergePayload)) (u : String) : List (String × String) :=
  match phase2Data.lookup u with
  | some p => p.consistencyFacts
  | none => (finalFactsOf candidateByUser phase2Data u).map (fun t => (t, "neutral"))

/-- The tuple gathered by `build_evidence_records` for one message. -/
structure EvidenceMsg where
  msg : GroupMessage
  evidence_confidence : ℚ
  joke_likelihood : ℚ
  source_type : String
  consistency_tag : Option String
deriving DecidableEq

/-- `evidence_msgs.sort(key=lambda x: (x[0].ts, x[0].id), reverse=True)`. -/
def evMsgRankLE (a b : EvidenceMsg) : Prop :=
  b.msg.ts < a.msg.ts ∨ (b.msg.ts = a.msg.ts ∧ b.msg.id ≤ a.msg.id)

instance : DecidableRel evMsgRankLE := fun a b => by
  unfold evMsgRankLE
  infer_instance

/-- Python truthiness of `str(x).strip()`: the string has no non-whitespace
character. -/
def isBlank (s : String) : Bool := s.data.all Char.isWhitespace

/-- `candidate_texts` for one final item: the mapping entry filtered to
non-blank strings, falling back to the item text itself. -/
def candidateTextsFor (mappingBlock : List (String × List String)) (item_text : String) :
    List String :=
  let mapped := match mappingBlock.lookup item_text with
    | some l => l.filter (fun s => ! isBlank s)
    | none => []
  if mapped.isEmpty then [item_text] else mapped

/-- The `evidence_msgs` gathering loop of `build_evidence_records`: for each
candidate text, every signal whose evidence id matches a pending message. -/
def gatherEvidenceMsgs (candidateItems : List (String × List CandidateSignal))
    (consistencyBlock : List (String × String))
    (pendingById : Int → Option GroupMessage) (item_text : String)
    (candidate_texts : List String) : List EvidenceMsg :=
  candidate_texts.foldl (fun acc ct =>
    acc ++ ((candidateItems.lookup ct).getD []).filterMap (fun sig =>
      match pendingById sig.evidence_id with
      | none => none
      | some msg => some { msg := msg, evidence_confidence := sig.evidence_confidence
                           joke_likelihood := sig.joke_likelihood
                           source_type := sig.source_type
                           consistency_tag := consistencyBlock.lookup item_text })) []

/-- `build_evidence_records` for one item type: per final item, the most
recent `MAX_EVIDENCE_PER_ITEM = 3` gathered messages become evidence tuples. -/
def buildEvidenceRecordsFor (group_id user_id item_type : String)
    (final_items : List String) (mappingBlock : List (String × List String))
    (consistencyBlock : List (String × String))
    (candidateItems : List (String × List CandidateSignal))
    (pendingById : Int → Option GroupMessage) (created_at : ℚ) : List NewEvidence :=
  final_items.foldl (fun recs item_text =>
    let candidate_texts := candidateTextsFor mappingBlock item_text
    let evidence_msgs := List.insertionSort evMsgRankLE
      (gatherEvidenceMsgs candidateItems consistencyBlock pendingById item_text
        candidate_texts)
    recs ++ (evidence_msgs.take 3).map (fun em =>
      { group_id := group_id, user_id := user_id, item_type := item_type
        item_text := item_text, message_id := em.msg.id
        speaker_id := em.msg.user_id, message_text := em.msg.message
        message_ts := em.msg.ts, evidence_confidence := em.evidence_confidence
        joke_likelihood := em.joke_likelihood, source_type := em.source_type
        consistency_tag := em.consistency_tag, created_at := created_at })) []

/-- `build_evidence_records`: traits then facts. -/
def buildEvidenceRecords (group_id user_id : String)
    (final_traits final_facts : List String)
    (mappingTraits mappingFacts : List (String × List String))
    (consistencyTraits consistencyFacts : List (String × String))
    (candidates : Candidates) (pendingById : Int → Option GroupMessage)
    (created_at : ℚ) : List NewEvidence :=
  buildEvidenceRecordsFor group_id user_id "trait" final_traits mappingTraits
      consistencyTraits candidates.traits pendingById created_at
    ++ buildEvidenceRecordsFor group_id user_id "fact" final_facts mappingFacts
      consistencyFacts candidates.facts pendingById created_at

/-- `_prune_evidence`: cap each final trait's and fact's evidence at
`MAX_EVIDENCE_PER_ITEM = 3`. -/
def pruneEvidenceAll (st : Store) (group_id user_id : String)
    (traits facts : List String) : Store :=
  let st1 := traits.foldl (fun s t => pruneEvidence s group_id user_id "trait" t 3) st
  facts.foldl (fun s t => pruneEvidence s group_id user_id "fact" t 3) st1

/-- Python `max(m.ts for m in msgs)` (total stand-in; every call site passes a
non-empty list). -/
def maxTs (msgs : List GroupMessage) : ℚ := ((msgs.map (fun m => m.ts)).maximum).getD 0

/-- `ImpressionStore.get_profile` as used by the pipeline callers: the
profiles table is keyed by `user_id` alone. -/
def getProfile (st : Store) (user_id : String) : Option ProfileRecord :=
  (st.profiles.lookup user_id).map (fun p => p.record)

/-- `upsert_profile_with_confidence` as invoked by `_run_phase_updates`
(record plus the two confidence maps), keyed by `user_id`. -/
def upsertProfileWithConfidence (st : Store) (rec : ProfileRecord)
    (traitConf factConf : List (String × ℚ)) : Store :=
  let pp : PersistedProfile :=
    { record := rec, traitConfidence := traitConf, factConfidence := factConf }
  if st.profiles.any (fun p => decide (p.1 = rec.user_id)) then
    { st with profiles := st.profiles.map (fun p =>
        if p.1 = rec.user_id then (p.1, pp) else p) }
  else { st with profiles := st.profiles ++ [(rec.user_id, pp)] }

/-- The per-user tail of `_run_phase_updates` (the loop body over
`known_user_ids`): build and insert evidence, prune, recompute both confidence
maps from the stored evidence, and upsert the profile carrying the final lists
verbatim. -/
def persistUser (eexp : ℚ → ℚ) (cfg : UpdateConfig) (group_id : String) (now : ℚ)
    (pendingByUser : List (String × List GroupMessage))
    (pendingById : Int → Option GroupMessage)
    (trustScores : String → Option ℚ) (storeTrust : String → ℚ)
    (profilesByUser : String → Option ProfileRecord)
    (summaries : List (String × String))
    (candidateByUser : List (String × Candidates))
    (phase2Data : List (String × MergePayload))
    (st : Store) (user_id : String) : Store :=
  let profile := profilesByUser user_id
  let nickname := match profile with
    | some p => if p.nickname ≠ "" then p.nickname else user_id
    | none => user_id
  let msgs := (pendingByUser.lookup user_id).getD []
  let last_seen := maxTs msgs
  let summary :=
    let s1 := (summaries.lookup user_id).getD ""
    if s1 ≠ "" then s1 else match profile with
      | some p => p.summary
      | none => ""
  let final_traits := finalTraitsOf candidateByUser phase2Data user_id
  let final_facts := finalFactsOf candidateByUser phase2Data user_id
  let recs := buildEvidenceRecords group_id user_id final_traits final_facts
    (mappingTraitsOf candidateByUser phase2Data user_id)
    (mappingFactsOf candidateByUser phase2Data user_id)
    (consistencyTraitsOf candidateByUser phase2Data user_id)
    (consistencyFactsOf candidateByUser phase2Data user_id)
    ((candidateByUser.lookup user_id).getD emptyCandidates) pendingById now
  let st1 := if recs.isEmpty then st
    else pruneEvidenceAll (insertEvidence st recs) group_id user_id final_traits final_facts
  let traitConf := recomputeConfidenceMap eexp cfg.evidence_half_life_days now trustScores
    storeTrust (fun t => (getEvidenceForItem st1.evidence group_id user_id "trait" t).map
      toRow) final_traits
  let factConf := recomputeConfidenceMap eexp cfg.evidence_half_life_days now trustScores
    storeTrust (fun t => (getEvidenceForItem st1.evidence group_id user_id "fact" t).map
      toRow) final_facts
  let rec2 : ProfileRecord :=
    { group_id := group_id, user_id := user_id, nickname := nickname
      last_seen := last_seen, summary := summary, traits := final_traits
      facts := final_facts, examples := [], updated_at := now
      version := match profile with | some p => p.version | none => 1 }
  upsertProfileWithConfidence st1 rec2 traitConf factConf

/-- `users_for_merge`: known users whose (possibly cleared) existing traits or
facts are non-empty. -/
def usersForMerge (profilesByUser : String → Option ProfileRecord)
    (clearOldUserIds : List String) (knownUserIds : List String) : List String :=
  knownUserIds.filter (fun u =>
    match profilesByUser u with
    | some p => decide (u ∉ clearOldUserIds ∧ ¬ (p.traits.isEmpty ∧ p.facts.isEmpty))
    | none => false)

/-- `_run_phase_updates`, with the stage outcomes taken from the environment
at the parse boundary; returns the store and the source function's boolean.
When `users_for_merge` is empty, phase 2 is never invoked (`some []`);
a malformed phase-3 response (`some none`) is tolerated with empty
summaries. -/
def runPhaseUpdates (eexp : ℚ → ℚ) (env : PhaseEnv) (cfg : UpdateConfig)
    (group_id : String) (now : ℚ)
    (pendingByUser : List (String × List GroupMessage))
    (profilesByUser : String → Option ProfileRecord)
    (storeTrust : String → ℚ) (clearOldUserIds : List String)
    (st : Store) : Store × Bool :=
  if pendingByUser.isEmpty then (st, false)
  else if env.provider_id = "" then (st, false)
  else
    match env.phase1 with
    | none => (st, false)
    | some candidateByUser =>
      if candidateByUser.isEmpty then (st, false)
      else
        let knownUserIds := pendingByUser.map (fun p => p.1)
        let merge := usersForMerge profilesByUser clearOldUserIds knownUserIds
        match (if merge.isEmpty then some [] else env.phase2) with
        | none => (st, false)
        | some phase2Data =>
          match env.phase3 with
          | none => (st, false)
          | some p3 =>
            let summaries := p3.getD []
            let allMsgs := pendingByUser.foldl (fun acc p => acc ++ p.2) []
            let pendingById := fun i =>
              allMsgs.reverse.find? (fun m => decide (m.id = i))
            let ids := allMsgs.foldl (fun acc m =>
              if m.id ∈ acc then acc else acc ++ [m.id]) []
            let speakers := (ids.filterMap pendingById).foldl (fun acc m =>
              if m.user_id ∈ acc then acc else acc ++ [m.user_id]) []
            let trustScores := fun s =>
              if s ∈ speakers then some (storeTrust s) else none
            (knownUserIds.foldl (persistUser eexp cfg group_id now pendingByUser pendingById
              trustScores storeTrust profilesByUser summaries candidateByUser phase2Data) st,
             true)

/-- `ORDER BY ts ASC, id ASC` for queue rows. -/
def pendingRankLE (a b : GroupMessage) : Prop :=
  a.ts < b.ts ∨ (a.ts = b.ts ∧ a.id ≤ b.id)

instance : DecidableRel pendingRankLE := fun a b => by
  unfold pendingRankLE
  infer_instance

/-- `ImpressionStore.get_pending_messages` with a limit. -/
def getPendingMessages (st : Store) (group_id user_id : String) (limit : Nat) :
    List GroupMessage :=
  (List.insertionSort pendingRankLE
    (st.pending.filter (fun m =>
      decide (m.group_id = group_id ∧ m.user_id = user_id)))).take limit

/-- `ImpressionStore.delete_pending_messages`. -/
def deletePendingMessages (st : Store) (ids : List Int) : Store :=
  { st with pending := st.pending.filter (fun m => decide (m.id ∉ ids)) }

/-- `_wrap_pending_messages`. -/
def wrapPendingMessages (group_id user_id : String) (pending : List GroupMessage) :
    List GroupMessage :=
  pending.map (fun m =>
    { id := m.id, group_id := group_id, user_id := user_id, message := m.message
      ts := m.ts })

/-- The batch consumed by `maybe_schedule_update`:
`min(MAX_PENDING_MESSAGES, max(1, update_msg_threshold))` queue rows for the
key, wrapped. -/
def scheduledBatch (cfg : UpdateConfig) (st : Store) (group_id user_id : String) :
    List GroupMessage :=
  wrapPendingMessages group_id user_id
    (getPendingMessages st group_id user_id
      (min 200 (max 1 cfg.update_msg_threshold)).toNat)

/-- The storage side of `maybe_schedule_update` (inside its per-key lock):
fetch the batch, apply the count/time trigger gate, run the pipeline, and
delete the consumed batch only when it returned `True`. The boolean returned
here exposes the `ok` flag of `_run_phase_updates` (the Python coroutine
returns `None`). -/
def maybeScheduleUpdate (eexp : ℚ → ℚ) (env : PhaseEnv) (cfg : UpdateConfig)
    (group_id user_id : String) (now : ℚ) (storeTrust : String → ℚ)
    (st : Store) : Store × Bool :=
  let pending := scheduledBatch cfg st group_id user_id
  if pending.isEmpty then (st, false)
  else
    let profile := getProfile st user_id
    let last_update := match profile with
      | some p => p.updated_at
      | none => 0
    let last_seen := maxTs pending
    if (pending.length : Int) < cfg.update_msg_threshold
        ∧ last_seen - last_update < cfg.update_time_threshold_sec then (st, false)
    else
      let profilesByUser := fun u => if u = user_id then profile else none
      let res := runPhaseUpdates eexp env cfg group_id now [(user_id, pending)]
        profilesByUser storeTrust [] st
      if res.2 then
        (deletePendingMessages res.1 (pending.map (fun m => m.id)), true)
      else (res.1, false)

/-! Pipeline lemmas: no store write before the final persist loop, the persist
loop never touches the message queue, and only a fully successful run deletes
its batch. -/

theorem insertEvidence_pending (st : Store) (recs : List NewEvidence) :
    (insertEvidence st recs).pending = st.pending := rfl

theorem pruneEvidence_pending (st : Store) (g u ty tx : String) (m : Int) :
    (pruneEvidence st g u ty tx m).pending = st.pending := by
  unfold pruneEvidence
  split <;> rfl

theorem pruneEvidenceAll_pending (g u : String) (traits facts : List String)
    (st : Store) : (pruneEvidenceAll st g u traits facts).pending = st.pending := by
  have haux : ∀ (ty : String) (items : List String) (s : Store),
      (items.foldl (fun s t => pruneEvidence s g u ty t 3) s).pending = s.pending := by
    intro ty items
    induction items with
    | nil => intro s; rfl
    | cons t rest ih =>
      intro s
      rw [List.foldl_cons, ih, pruneEvidence_pending]
  simp only [pruneEvidenceAll]
  rw [haux, haux]

theorem upsertProfileWithConfidence_pending (st : Store) (rec : ProfileRecord)
    (tc fc : List (String × ℚ)) :
    (upsertProfileWithConfidence st rec tc fc).pending = st.pending := by
  simp only [upsertProfileWithConfidence]
  split <;> rfl

theorem persistUser_pending (eexp : ℚ → ℚ) (cfg : UpdateConfig) (g : String) (now : ℚ)
    (pbu : List (String × List GroupMessage)) (pbid : Int → Option GroupMessage)
    (ts : String → Option ℚ) (str : String → ℚ)
    (profs : String → Option ProfileRecord) (summ : List (String × String))
    (cbu : List (String × Candidates)) (p2d : List (String × MergePayload))
    (st : Store) (u : String) :
    (persistUser eexp cfg g now pbu pbid ts str profs summ cbu p2d st u).pending
      = st.pending := by
  simp only [persistUser]
  rw [upsertProfileWithConfidence_pending]
  split
  · rfl
  · rw [pruneEvidenceAll_pending, insertEvidence_pending]

theorem foldl_persistUser_pending (eexp : ℚ → ℚ) (cfg : UpdateConfig) (g : String)
    (now : ℚ) (pbu : List (String × List GroupMessage))
    (pbid : Int → Option GroupMessage) (ts : String → Option ℚ) (str : String → ℚ)
    (profs : String → Option ProfileRecord) (summ : List (String × String))
    (cbu : List (String × Candidates)) (p2d : List (String × MergePayload)) :
    ∀ (users : List String) (st : Store),
      (users.foldl (persistUser eexp cfg g now pbu pbid ts str profs summ cbu p2d)
        st).pending = st.pending := by
  intro users
  induction users with
  | nil => intro st; rfl
  | cons u rest ih =>
    intro st
    rw [List.foldl_cons, ih, persistUser_pending]

theorem runPhaseUpdates_pending {eexp : ℚ → ℚ} {env : PhaseEnv} {cfg : UpdateConfig}
    {g : String} {now : ℚ} {pbu : List (String × List GroupMessage)}
    {profs : String → Option ProfileRecord} {str : String → ℚ}
    {clear : List String} {st : Store} :
    (runPhaseUpdates eexp env cfg g now pbu profs str clear st).1.pending
      = st.pending := by
  simp only [runPhaseUpdates]
  repeat' split
  all_goals first
    | rfl
    | apply foldl_persistUser_pending

theorem runPhaseUpdates_fail_id {eexp : ℚ → ℚ} {env : PhaseEnv} {cfg : UpdateConfig}
    {g : String} {now : ℚ} {pbu : List (String × List GroupMessage)}
    {profs : String → Option ProfileRecord} {str : String → ℚ}
    {clear : List String} {st : Store} :
    (runPhaseUpdates eexp env cfg g now pbu profs str clear st).2 = false →
    (runPhaseUpdates eexp env cfg g now pbu profs str clear st).1 = st := by
  simp only [runPhaseUpdates]
  repeat' split
  all_goals intro h
  all_goals first | rfl | simp at h

theorem runPhaseUpdates_aborts {eexp : ℚ → ℚ} {env : PhaseEnv} {cfg : UpdateConfig}
    {g : String} {now : ℚ} {pbu : List (String × List GroupMessage)}
    {profs : String → Option ProfileRecord} {str : String → ℚ}
    {clear : List String} {st : Store}
    (h : env.phase1 = none ∨ env.provider_id = "") :
    runPhaseUpdates eexp env cfg g now pbu profs str clear st = (st, false) := by
  rcases h with h | h
  · simp [runPhaseUpdates, h]
  · simp [runPhaseUpdates, h]

theorem maybeScheduleUpdate_fail_id {eexp : ℚ → ℚ} {env : PhaseEnv}
    {cfg : UpdateConfig} {g u : String} {now : ℚ} {str : String → ℚ} {st : Store} :
    (maybeScheduleUpdate eexp env cfg g u now str st).2 = false →
    (maybeScheduleUpdate eexp env cfg g u now str st).1 = st := by
  simp only [maybeScheduleUpdate]
  split
  · intro _; rfl
  · split
    · intro _; rfl
    · split
      · intro h; simp at h
      · next h2 =>
        intro _
        exact runPhaseUpdates_fail_id (by simpa using h2)

theorem maybeScheduleUpdate_success {eexp : ℚ → ℚ} {env : PhaseEnv}
    {cfg : UpdateConfig} {g u : String} {now : ℚ} {str : String → ℚ} {st : Store} :
    (maybeScheduleUpdate eexp env cfg g u now str st).2 = true →
    (maybeScheduleUpdate eexp env cfg g u now str st).1.pending
        = st.pending.filter (fun m =>
            decide (m.id ∉ (scheduledBatch cfg st g u).map (fun x => x.id)))
      ∧ ∀ m ∈ scheduledBatch cfg st g u,
          ¬ ∃ m2 ∈ (maybeScheduleUpdate eexp env cfg g u now str st).1.pending,
            m2.id = m.id := by
  simp only [maybeScheduleUpdate]
  split
  · intro h; simp at h
  · split
    · intro h; simp at h
    · split
      · intro _
        constructor
        · simp only [deletePendingMessages]
          rw [runPhaseUpdates_pending]
        · rintro m hm ⟨m2, hm2, heq⟩
          simp only [deletePendingMessages] at hm2
          rcases List.mem_filter.mp hm2 with ⟨_, hdec⟩
          rw [decide_eq_true_eq] at hdec
          exact hdec (heq ▸ List.mem_map_of_mem (fun x => x.id) hm)
      · intro h; simp at h

/-- C3, counterexample setup: one pending message, a valid phase-1 response
with one fact candidate, no existing profile (so phase 2 is skipped), and a
malformed phase-3 response. -/
def exM1 : GroupMessage :=
  { id := 1, group_id := "g", user_id := "u1", message := "hello", ts := 0 }

def exStoreC3 : Store :=
  { pending := [exM1], evidence := [], nextEvidenceId := 1, aliasRows := [], profiles := [] }

def exCfg : UpdateConfig :=
  { update_msg_threshold := 1, update_time_threshold_sec := 0
    evidence_half_life_days := 0 }

def exSigC3 : CandidateSignal :=
  { evidence_id := 1, evidence_confidence := 4/5, joke_likelihood := 1/4
    source_type := "self" }

def exEnvC3 : PhaseEnv :=
  { provider_id := "p"
    phase1 := some [("u1", { traits := [], facts := [("fc", [exSigC3])] })]
    phase2 := none
    phase3 := some none }

/-- C3, counterexample: a malformed phase-3 response (`some none`) does not
abort the run — the pipeline still succeeds, persists its outputs and deletes
the consumed pending message, contradicting "a malformed remote response at
any of the three stages leaves every pending message retrievable". -/
theorem c3_phase3_malformed_counterexample :
    exEnvC3.phase3 = some none
    ∧ exM1 ∈ exStoreC3.pending
    ∧ (maybeScheduleUpdate (fun _ => 1) exEnvC3 exCfg "g" "u1" 0 (fun _ => 7/10)
        exStoreC3).2 = true
    ∧ (maybeScheduleUpdate (fun _ => 1) exEnvC3 exCfg "g" "u1" 0 (fun _ => 7/10)
        exStoreC3).1.pending = [] := by
  refine ⟨rfl, by simp [exStoreC3], rfl, rfl⟩

/-- C3 (amended): `_run_phase_updates` is all-or-nothing over the store for
stages 1 and 2 — a missing provider or a failed/malformed stage-1 response
aborts with the store untouched, every `False` return leaves the store
untouched, and the pipeline itself never deletes pending messages; under
`maybe_schedule_update`, a failed run leaves the whole store (hence every
pending message) intact, and a successful run deletes exactly the consumed
batch, after which none of its messages remain. A malformed phase-3 response,
however, does not count as failure (see the counterexample). -/
theorem c3_all_or_nothing (eexp : ℚ → ℚ) (env : PhaseEnv) (cfg : UpdateConfig)
    (group_id user_id : String) (now : ℚ)
    (pendingByUser : List (String × List GroupMessage))
    (profilesByUser : String → Option ProfileRecord)
    (storeTrust : String → ℚ) (clearOldUserIds : List String) (st : Store) :
    ((env.phase1 = none ∨ env.provider_id = "") →
      runPhaseUpdates eexp env cfg group_id now pendingByUser profilesByUser storeTrust
        clearOldUserIds st = (st, false))
    ∧ ((runPhaseUpdates eexp env cfg group_id now pendingByUser profilesByUser storeTrust
          clearOldUserIds st).2 = false →
        (runPhaseUpdates eexp env cfg group_id now pendingByUser profilesByUser storeTrust
          clearOldUserIds st).1 = st)
    ∧ (runPhaseUpdates eexp env cfg group_id now pendingByUser profilesByUser storeTrust
        clearOldUserIds st).1.pending = st.pending
    ∧ ((maybeScheduleUpdate eexp env cfg group_id user_id now storeTrust st).2 = false →
        (maybeScheduleUpdate eexp env cfg group_id user_id now storeTrust st).1 = st)
    ∧ ((maybeScheduleUpdate eexp env cfg group_id user_id now storeTrust st).2 = true →
        (maybeScheduleUpdate eexp env cfg group_id user_id now storeTrust st).1.pending
            = st.pending.filter (fun m =>
                decide (m.id ∉ (scheduledBatch cfg st group_id user_id).map (fun x => x.id)))
          ∧ ∀ m ∈ scheduledBatch cfg st group_id user_id,
              ¬ ∃ m2 ∈ (maybeScheduleUpdate eexp env cfg group_id user_id now storeTrust
                  st).1.pending, m2.id = m.id) :=
  ⟨runPhaseUpdates_aborts, runPhaseUpdates_fail_id, runPhaseUpdates_pending,
    maybeScheduleUpdate_fail_id, maybeScheduleUpdate_success⟩

/-- Witness for `c3_all_or_nothing`: the success clause applied at the
concrete counterexample instance. -/
theorem c3_all_or_nothing_witness :
    (maybeScheduleUpdate (fun _ => 1) exEnvC3 exCfg "g" "u1" 0 (fun _ => 7/10)
        exStoreC3).1.pending
      = exStoreC3.pending.filter (fun m =>
          decide (m.id ∉ (scheduledBatch exCfg exStoreC3 "g" "u1").map (fun x => x.id))) :=
  ((c3_all_or_nothing (fun _ => 1) exEnvC3 exCfg "g" "u1" 0 [] (fun _ => none)
    (fun _ => 7/10) [] exStoreC3).2.2.2.2 rfl).1

/-! C7: what a synthesis run actually persists. -/

theorem lookup_map_update (pp : PersistedProfile) (uid : String) :
    ∀ (l : List (String × PersistedProfile)),
      l.any (fun p => decide (p.1 = uid)) = true →
      (l.map (fun p => if p.1 = uid then (p.1, pp) else p)).lookup uid = some pp := by
  intro l
  induction l with
  | nil => intro h; simp at h
  | cons p rest ih =>
    intro h
    by_cases hk : p.1 = uid
    · simp only [List.map_cons]
      rw [if_pos hk]
      simp [List.lookup, hk]
    · have h2 : rest.any (fun p => decide (p.1 = uid)) = true := by
        rcases List.any_eq_true.mp h with ⟨q, hq, hqd⟩
        rcases List.mem_cons.mp hq with rfl | hq2
        · exact absurd (of_decide_eq_true hqd) hk
        · exact List.any_eq_true.mpr ⟨q, hq2, hqd⟩
      simp only [List.map_cons]
      rw [if_neg hk]
      have hbeq : (uid == p.1) = false := beq_eq_false_iff_ne.mpr (Ne.symm hk)
      simpa [List.lookup, hbeq] using ih h2

theorem lookup_append_fresh (pp : PersistedProfile) (uid : String) :
    ∀ (l : List (String × PersistedProfile)),
      l.any (fun p => decide (p.1 = uid)) = false →
      (l ++ [(uid, pp)]).lookup uid = some pp := by
  intro l
  induction l with
  | nil => intro _; simp [List.lookup]
  | cons p rest ih =>
    intro h
    rw [List.any_cons] at h
    rcases Bool.or_eq_false_iff.mp h with ⟨h1, h2⟩
    have hk : p.1 ≠ uid := by simpa using h1
    have hbeq : (uid == p.1) = false := beq_eq_false_iff_ne.mpr (Ne.symm hk)
    rw [List.cons_append]
    simpa [List.lookup, hbeq] using ih h2

theorem lookup_upsertProfileWithConfidence (st : Store) (rec : ProfileRecord)
    (tc fc : List (String × ℚ)) (uid : String) (hu : rec.user_id = uid) :
    ((upsertProfileWithConfidence st rec tc fc).profiles.lookup uid)
      = some { record := rec, traitConfidence := tc, factConfidence := fc } := by
  subst hu
  simp only [upsertProfileWithConfidence]
  split
  · next hany => exact lookup_map_update _ _ _ hany
  · next hany =>
      refine lookup_append_fresh _ _ _ ?_
      simp only [Bool.not_eq_true] at hany
      exact hany

theorem recomputeConfidenceMap_keys (eexp : ℚ → ℚ) (h n : ℚ)
    (ts : String → Option ℚ) (str : String → ℚ)
    (gr : String → List EvidenceRow) (items : List String) :
    (recomputeConfidenceMap eexp h n ts str gr items).map (fun q => q.1) = items := by
  unfold recomputeConfidenceMap
  induction items with
  | nil => rfl
  | cons t rest ih => simpa using ih

/-- C7 (amended): what `_run_phase_updates` persists for a user is the final
fact and trait lists of the pipeline verbatim — every final fact is stored
together with a recomputed-confidence entry regardless of that confidence's
value (no floor is applied), in pipeline order (no re-sorting), with no
`delete_evidence_for_item` call anywhere in the flow. -/
theorem c7_persisted_facts_verbatim (eexp : ℚ → ℚ) (cfg : UpdateConfig)
    (group_id : String) (now : ℚ) (pbu : List (String × List GroupMessage))
    (pbid : Int → Option GroupMessage) (ts : String → Option ℚ) (str : String → ℚ)
    (profs : String → Option ProfileRecord) (summ : List (String × String))
    (cbu : List (String × Candidates)) (p2d : List (String × MergePayload))
    (st : Store) (u : String) :
    ∃ pp, ((persistUser eexp cfg group_id now pbu pbid ts str profs summ cbu p2d
        st u).profiles.lookup u) = some pp
      ∧ pp.record.facts = finalFactsOf cbu p2d u
      ∧ pp.record.traits = finalTraitsOf cbu p2d u
      ∧ pp.factConfidence.map (fun q => q.1) = finalFactsOf cbu p2d u
      ∧ pp.traitConfidence.map (fun q => q.1) = finalTraitsOf cbu p2d u := by
  simp only [persistUser]
  refine ⟨_, lookup_upsertProfileWithConfidence _ _ _ _ _ rfl, ?_, ?_, ?_, ?_⟩
  · rfl
  · rfl
  · exact recomputeConfidenceMap_keys _ _ _ _ _ _ _
  · exact recomputeConfidenceMap_keys _ _ _ _ _ _ _

/-- C7, counterexample setup: an existing profile with facts `f2` and `fold`,
a merge result `["f1", "f2"]` (so `fold` is dropped), evidence in store for
the dropped fact, and a candidate signal backing only `f2`. -/
def exProfileC7 : ProfileRecord :=
  { group_id := "g", user_id := "u1", nickname := "nick", last_seen := 0
    summary := "", traits := [], facts := ["f2", "fold"], examples := []
    updated_at := 0, version := 1 }

def exSigC7 : CandidateSignal :=
  { evidence_id := 1, evidence_confidence := 4/5, joke_likelihood := 1/4
    source_type := "self" }

def exPayloadC7 : MergePayload :=
  { traits := [], facts := ["f1", "f2"], mappingTraits := []
    mappingFacts := [("f2", ["f2c"])], consistencyTraits := []
    consistencyFacts := [] }

def exEnvC7 : PhaseEnv :=
  { provider_id := "p"
    phase1 := some [("u1", { traits := [], facts := [("f2c", [exSigC7])] })]
    phase2 := some [("u1", exPayloadC7)]
    phase3 := some (some []) }

def exOldEvidence : EvidenceRecord :=
  { id := 99, group_id := "g", user_id := "u1", item_type := "fact"
    item_text := "fold", message_id := 5, speaker_id := "sp"
    message_text := "old", message_ts := 0, evidence_confidence := some (3/5)
    joke_likelihood := some (1/5), source_type := some "other"
    consistency_tag := none, created_at := 0 }

def exStoreC7 : Store :=
  { pending := [], evidence := [exOldEvidence], nextEvidenceId := 100
    aliasRows := [], profiles := [("u1",
      { record := exProfileC7, traitConfidence := []
        factConfidence := [("f2", 1/2), ("fold", 3/5)] })] }

def exRunC7 : Store × Bool :=
  runPhaseUpdates (fun _ => 1) exEnvC7 exCfg "g" 0 [("u1", [exM1])]
    (fun u => if u = "u1" then some exProfileC7 else none) (fun _ => 7/10) [] exStoreC7

/-- C7, counterexample: after a successful run, the fact `f1` is persisted
with recomputed confidence `0` — below any positive floor — and the fact list
`["f1", "f2"]` stores `f1` (confidence `0`) ahead of `f2` (confidence `0.42`),
so it is not sorted by descending confidence; and the evidence of the dropped
fact `fold` is still in the store (nothing ever deletes it). -/
theorem c7_no_floor_counterexample :
    exRunC7.2 = true
    ∧ (exRunC7.1.profiles.lookup "u1").map (fun pp => pp.record.facts)
        = some ["f1", "f2"]
    ∧ (exRunC7.1.profiles.lookup "u1").map (fun pp => pp.factConfidence)
        = some [("f1", 0), ("f2", 21/50)]
    ∧ exOldEvidence ∈ exRunC7.1.evidence
    ∧ ((0:ℚ) < 1/2 ∧ (0:ℚ) < 21/50) := by
  refine ⟨rfl, ?_, ?_, ?_, by norm_num, by norm_num⟩
  · simp [exRunC7, runPhaseUpdates, usersForMerge, persistUser, exEnvC7, exCfg,
      exStoreC7, exProfileC7, exPayloadC7, exSigC7, exM1, finalTraitsOf, finalFactsOf,
      mappingTraitsOf, mappingFactsOf, consistencyTraitsOf, consistencyFactsOf,
      emptyCandidates, buildEvidenceRecords, buildEvidenceRecordsFor, candidateTextsFor,
      isBlank, gatherEvidenceMsgs, pruneEvidenceAll, pruneEvidence, insertEvidence,
      toRecord, getEvidenceForItem, toRow, recomputeConfidenceMap,
      recomputeItemConfidence, rowSignal, preSignal, decayFactor, clamp01, clamp,
      readEvidenceConfidence, readJokeLikelihood, orElseNum, orElseStr, sourceWeight,
      consistencyWeight, trustFor, upsertProfileWithConfidence, List.insertionSort,
      List.orderedInsert, evidenceRankLE, evMsgRankLE, List.lookup, List.filter_cons,
      List.filter_nil, maxTs]
  · simp [exRunC7, runPhaseUpdates, usersForMerge, persistUser, exEnvC7, exCfg,
      exStoreC7, exProfileC7, exPayloadC7, exSigC7, exM1, finalTraitsOf, finalFactsOf,
      mappingTraitsOf, mappingFactsOf, consistencyTraitsOf, consistencyFactsOf,
      emptyCandidates, buildEvidenceRecords, buildEvidenceRecordsFor, candidateTextsFor,
      isBlank, gatherEvidenceMsgs, pruneEvidenceAll, pruneEvidence, insertEvidence,
      toRecord, getEvidenceForItem, toRow, recomputeConfidenceMap,
      recomputeItemConfidence, rowSignal, preSignal, decayFactor, clamp01, clamp,
      readEvidenceConfidence, readJokeLikelihood, orElseNum, orElseStr, sourceWeight,
      consistencyWeight, trustFor, upsertProfileWithConfidence, List.insertionSort,
      List.orderedInsert, evidenceRankLE, evMsgRankLE, List.lookup, List.filter_cons,
      List.filter_nil, maxTs]
    norm_num [min_def, max_def]
  · simp [exRunC7, runPhaseUpdates, usersForMerge, persistUser, exEnvC7, exCfg,
      exStoreC7, exProfileC7, exPayloadC7, exSigC7, exM1, finalTraitsOf, finalFactsOf,
      mappingTraitsOf, mappingFactsOf, consistencyTraitsOf, consistencyFactsOf,
      emptyCandidates, buildEvidenceRecords, buildEvidenceRecordsFor, candidateTextsFor,
      isBlank, gatherEvidenceMsgs, pruneEvidenceAll, pruneEvidence, insertEvidence,
      toRecord, getEvidenceForItem, toRow, upsertProfileWithConfidence,
      List.insertionSort, List.orderedInsert, evidenceRankLE, evMsgRankLE, List.lookup,
      List.filter_cons, List.filter_nil]

end Impression
